import Mathlib

/-!
Verification of the credit-card invoice accounting engine of a
personal-finance ledger backend (TypeScript/Express/Prisma).

The embedding works at calendar-day granularity: every stored date in the
source is normalized to a fixed time-of-day (03:00 UTC, Brazil local
midnight), so JavaScript timestamp comparisons between stored dates
coincide with calendar-date comparisons.  A JavaScript `Date` is therefore
modelled as a calendar triple (year, 0-based month, day); the JavaScript
`new Date(y, m, d)` constructor's native month/day overflow behaviour
(month 12 rolls into the next year, day 32 rolls into the next month, ...)
is reproduced by `mkDate` below on the proleptic Gregorian calendar.

Layout: all definitions first, then all theorems.
-/

/-- Gregorian leap-year rule, as implemented natively by JavaScript `Date`. -/
def isLeapYear (y : Int) : Bool :=
  (y % 4 == 0 && y % 100 != 0) || y % 400 == 0

/-- Number of days of 0-based month `m` of year `y` (Gregorian calendar, as
implemented natively by JavaScript `Date`).  Months outside 0..11 do not
occur after normalization; they default to 31. -/
def daysInMonth (y m : Int) : Int :=
  if m = 1 then (if isLeapYear y then 29 else 28)
  else if m = 3 ∨ m = 5 ∨ m = 8 ∨ m = 10 then 30
  else 31

/-- A JavaScript `Date` at calendar-day granularity: year, 0-based month
(0 = January, ..., 11 = December) and 1-based day of month, exactly the
values returned by `getFullYear()` / `getMonth()` / `getDate()`. -/
structure CalDate where
  year : Int
  month : Int
  day : Int
deriving DecidableEq, Repr

/-- A normalized calendar date: month in 0..11 and day within the month. -/
def CalDate.Valid (dt : CalDate) : Prop :=
  0 ≤ dt.month ∧ dt.month ≤ 11 ∧ 1 ≤ dt.day ∧ dt.day ≤ daysInMonth dt.year dt.month

instance (dt : CalDate) : Decidable dt.Valid := by
  unfold CalDate.Valid; infer_instance

/-- Order-reflecting integer key for normalized dates: since `32 * month + day`
ranges over [1, 383] for a normalized date, `toKey` orders valid dates exactly
as JavaScript timestamp comparison of dates sharing one time-of-day. -/
def CalDate.toKey (dt : CalDate) : Int :=
  512 * dt.year + 32 * dt.month + dt.day

/-- Day-overflow normalization of JavaScript `Date`: while the day exceeds the
current month's length, subtract that length and move to the next month.
`fuel` is a structural-recursion bound; `d.toNat` steps always suffice since
every month has at least 28 days. -/
def rollForwardAux (fuel : ℕ) (y m d : Int) : CalDate :=
  match fuel with
  | 0 => ⟨y, m, d⟩
  | fuel + 1 =>
    if d ≤ daysInMonth y m then ⟨y, m, d⟩
    else if 11 ≤ m then rollForwardAux fuel (y + 1) 0 (d - daysInMonth y m)
    else rollForwardAux fuel y (m + 1) (d - daysInMonth y m)

/-- Day-underflow normalization of JavaScript `Date` (day ≤ 0 borrows from the
preceding month). -/
def rollBackAux (fuel : ℕ) (y m d : Int) : CalDate :=
  match fuel with
  | 0 => ⟨y, m, d⟩
  | fuel + 1 =>
    if 1 ≤ d then ⟨y, m, d⟩
    else if m ≤ 0 then rollBackAux fuel (y - 1) 11 (d + daysInMonth (y - 1) 11)
    else rollBackAux fuel y (m - 1) (d + daysInMonth y (m - 1))

/-- JavaScript `new Date(y, m, d)` (equivalently `Date.UTC(y, m, d)`) at
calendar-day granularity: the month is first normalized by floored
division/modulus into the year, then day overflow/underflow rolls across
month boundaries.  This native overflow is not guarded against anywhere in
the source. -/
def mkDate (y m d : Int) : CalDate :=
  if 1 ≤ d then rollForwardAux d.toNat (y + m / 12) (m % 12) d
  else rollBackAux (1 - d).toNat (y + m / 12) (m % 12) d

/-! ## Calendar Arithmetic of the source

`TransactionService.calculateInvoiceDueDate` and
`TransactionService.calculateCurrentInvoiceDueDate`
(src/services/transactionService.ts), at calendar-day granularity. -/

/-- `TransactionService.normalizeDate`: sets the time-of-day to 03:00 UTC
(Brazil local midnight).  At calendar-day granularity it is the identity. -/
def normalizeDate (dt : CalDate) : CalDate := dt

/-- `TransactionService.calculateInvoiceDueDate(purchaseDate, closingDay, dueDay)`:
purchases up to the closing day bill to the purchase month, later purchases to
the following month; the result is `new Date(finalYear, finalMonth, dueDay)`
with only the month-12 overflow handled explicitly. -/
def calculateInvoiceDueDate (purchaseDate : CalDate) (closingDay dueDay : Int) : CalDate :=
  let invoiceMonth :=
    if purchaseDate.day ≤ closingDay then purchaseDate.month else purchaseDate.month + 1
  let invoiceYear := purchaseDate.year
  let finalMonth := if invoiceMonth > 11 then 0 else invoiceMonth
  let finalYear := if invoiceMonth > 11 then invoiceYear + 1 else invoiceYear
  mkDate finalYear finalMonth dueDay

/-- `TransactionService.calculateCurrentInvoiceDueDate(today, closingDay, dueDay)`:
the same rule applied to today, identifying the currently open invoice. -/
def calculateCurrentInvoiceDueDate (today : CalDate) (closingDay dueDay : Int) : CalDate :=
  let p : Int × Int :=
    if today.day > closingDay then
      if today.month + 1 > 11 then (today.year + 1, 0) else (today.year, today.month + 1)
    else (today.year, today.month)
  mkDate p.1 p.2 dueDay

/-- `TransactionService.isToday`: compares only year, month and day. -/
def isToday (dt today : CalDate) : Bool :=
  dt.year == today.year && dt.month == today.month && dt.day == today.day

/-! ## Data model

Shallow embedding of the Prisma rows the claims touch, at the fields the
source reads or writes.  Ids are natural numbers; money amounts are exact
rationals (Prisma `Decimal`). -/

inductive TxType where
  | INCOME
  | EXPENSE
deriving DecidableEq, Repr

inductive TxError where
  | cardNotFound
deriving DecidableEq, Repr

structure CreditCard where
  id : ℕ
  userId : ℕ
  closingDay : Int
  dueDay : Int
deriving DecidableEq, Repr

structure Transaction where
  txType : TxType
  amount : ℚ
  date : CalDate
  purchaseDate : Option CalDate := none
  description : String := ""
  paid : Bool := false
  paidAt : Option CalDate := none
  accountId : ℕ
  categoryId : ℕ
  creditCardId : Option ℕ := none
  installmentNumber : Option ℕ := none
  totalInstallments : Option ℕ := none
  recurrenceId : Option ℕ := none
  isRecurringCharge : Bool := false
  userId : ℕ
deriving DecidableEq, Repr

/-- A placeholder row, used only as the default of `List.getD`. -/
def dummyTx : Transaction :=
  { txType := TxType.EXPENSE, amount := 0, date := ⟨1970, 0, 1⟩,
    accountId := 0, categoryId := 0, userId := 0 }

/-- The input shape of `TransactionService.createTransaction`
(`CreateTransactionData` in src/services/transactionService.ts). -/
structure CreateTransactionData where
  txType : TxType
  amount : ℚ
  date : CalDate
  purchaseDate : Option CalDate := none
  description : String := ""
  accountId : ℕ
  categoryId : ℕ
  creditCardId : Option ℕ := none
  installmentNumber : Option ℕ := none
  totalInstallments : Option ℕ := none
  recurrenceId : Option ℕ := none
  isRecurringCharge : Bool := false
  userId : ℕ
deriving DecidableEq, Repr

/-- `prisma.creditCard.findUnique({ where: { id } })`. -/
def findCard (cards : List CreditCard) (cid : ℕ) : Option CreditCard :=
  cards.find? (fun c => c.id == cid)

/-! ## Transaction Lifecycle: `TransactionService.createTransaction` -/

/-- `TransactionService.createTransaction`.  The persistence lookup of the
credit card is supplied as the list `cards`; `today` is the clock.  On a
card charge the stored date becomes the invoice due date and the purchase
date is retained; the auto-pay rule marks a cardless EXPENSE dated today as
paid at creation. -/
def createTransaction (data : CreateTransactionData) (cards : List CreditCard)
    (today : CalDate) : Except TxError Transaction :=
  let transactionDate := normalizeDate data.date
  let purchaseDate := data.purchaseDate.map normalizeDate
  let resolved : Except TxError (CalDate × Option CalDate) :=
    match data.creditCardId with
    | none => .ok (transactionDate, purchaseDate)
    | some cid =>
      match findCard cards cid with
      | none => .error TxError.cardNotFound
      | some creditCard =>
        let actualPurchaseDate := purchaseDate.getD transactionDate
        .ok (normalizeDate
              (calculateInvoiceDueDate actualPurchaseDate creditCard.closingDay
                creditCard.dueDay),
             some actualPurchaseDate)
  match resolved with
  | .error e => .error e
  | .ok (transactionDate, purchaseDate) =>
    let shouldAutoPay := data.creditCardId.isNone && data.txType == TxType.EXPENSE &&
      isToday transactionDate today
    .ok {
      txType := data.txType
      amount := data.amount
      date := transactionDate
      purchaseDate := purchaseDate
      description := data.description
      paid := shouldAutoPay
      paidAt := if shouldAutoPay then some today else none
      accountId := data.accountId
      categoryId := data.categoryId
      creditCardId := data.creditCardId
      installmentNumber := data.installmentNumber
      totalInstallments := data.totalInstallments
      recurrenceId := data.recurrenceId
      isRecurringCharge := data.isRecurringCharge
      userId := data.userId
    }

/-! ## Installment Generator: `TransactionService.createInstallmentTransactions` -/

/-- The installment-date computation of `createInstallmentTransactions`
(lines 211-222 of the service): `totalMonths = month + monthsToAdd`,
`newYear = year + floor(totalMonths / 12)`, `newMonth = totalMonths % 12`,
then `Date.UTC(newYear, newMonth, originalDay)` keeping the original
day-of-month value. -/
def installmentCalendarDate (purchaseDate : CalDate) (monthsToAdd : Int) : CalDate :=
  let totalMonths := purchaseDate.month + monthsToAdd
  mkDate (purchaseDate.year + totalMonths / 12) (totalMonths % 12) purchaseDate.day

/-- `TransactionService.createInstallmentTransactions`: one row per
installment `i = 1..N`; the installment calendar date adds `i - 1` months to
the purchase date keeping the original day-of-month value; with a card the
stored date is the invoice due date of that calendar date and the
description gains the `i/N` suffix.  `recurrenceId` is the id of the freshly
created grouping Recurrence row.  Rows are created unpaid (schema default). -/
def createInstallmentTransactions (data : CreateTransactionData)
    (totalInstallments : ℕ) (cards : List CreditCard) (recurrenceId : ℕ) :
    Except TxError (List Transaction) :=
  let purchaseDate := normalizeDate (data.purchaseDate.getD data.date)
  let installmentAmount := data.amount
  let creditCard : Except TxError (Option CreditCard) :=
    match data.creditCardId with
    | none => .ok none
    | some cid =>
      match findCard cards cid with
      | none => .error TxError.cardNotFound
      | some c => .ok (some c)
  match creditCard with
  | .error e => .error e
  | .ok creditCard =>
    .ok ((List.range totalInstallments).map (fun j =>
      let i : ℕ := j + 1
      let monthsToAdd : Int := (i : Int) - 1
      let installmentDate := installmentCalendarDate purchaseDate monthsToAdd
      let transactionDate :=
        match creditCard with
        | some c =>
          normalizeDate (calculateInvoiceDueDate installmentDate c.closingDay c.dueDay)
        | none => installmentDate
      let description :=
        match creditCard with
        | some _ => data.description ++ " " ++ Nat.repr i ++ "/" ++ Nat.repr totalInstallments
        | none => data.description
      {
        txType := data.txType
        amount := installmentAmount
        date := transactionDate
        purchaseDate := match creditCard with | some _ => some installmentDate | none => none
        description := description
        paid := false
        accountId := data.accountId
        categoryId := data.categoryId
        creditCardId := data.creditCardId
        installmentNumber := some i
        totalInstallments := some totalInstallments
        recurrenceId := some recurrenceId
        isRecurringCharge := data.isRecurringCharge
        userId := data.userId
      }))

/-! ## Ownership outcomes of the transaction operations

`TransactionService.deleteTransaction` throws distinct `NOT_FOUND` /
`FORBIDDEN` errors; `getTransactionById` returns `null` for an absent row
but throws `ForbiddenError` for a foreign-owned one (mapped to 404 / 403 by
the route); `updateTransaction` and `updateTransactionPaidStatus` look the
row up with `findFirst({ id, userId })`, collapsing both situations into
one `Transaction not found` error. -/

structure TxRecord where
  id : ℕ
  userId : ℕ
deriving DecidableEq, Repr

/-- `prisma.transaction.findUnique({ where: { id } })`. -/
def findTx (txs : List TxRecord) (transactionId : ℕ) : Option TxRecord :=
  txs.find? (fun t => t.id == transactionId)

inductive DeleteOutcome where
  | notFoundError
  | forbiddenError
  | deleted
deriving DecidableEq, Repr

inductive GetByIdOutcome where
  | nullResult
  | forbiddenThrown
  | found (t : TxRecord)
deriving DecidableEq, Repr

inductive OwnedLookupOutcome where
  | notFoundError
  | updated
deriving DecidableEq, Repr

/-- `TransactionService.deleteTransaction`: `NOT_FOUND` when the row is
absent, `FORBIDDEN` when it belongs to another user. -/
def deleteTransaction (txs : List TxRecord) (transactionId userId : ℕ) : DeleteOutcome :=
  match findTx txs transactionId with
  | none => DeleteOutcome.notFoundError
  | some t =>
    if t.userId ≠ userId then DeleteOutcome.forbiddenError else DeleteOutcome.deleted

/-- `TransactionService.getTransactionById`: `null` when the row is absent,
`ForbiddenError` when it belongs to another user. -/
def getTransactionById (txs : List TxRecord) (transactionId userId : ℕ) : GetByIdOutcome :=
  match findTx txs transactionId with
  | none => GetByIdOutcome.nullResult
  | some t =>
    if t.userId ≠ userId then GetByIdOutcome.forbiddenThrown else GetByIdOutcome.found t

/-- The ownership lookup of `TransactionService.updateTransaction`:
`findFirst({ id, userId })`, then `Transaction not found` on `null`. -/
def updateTransactionLookup (txs : List TxRecord) (transactionId userId : ℕ) :
    OwnedLookupOutcome :=
  match txs.find? (fun t => t.id == transactionId && t.userId == userId) with
  | none => OwnedLookupOutcome.notFoundError
  | some _ => OwnedLookupOutcome.updated

/-- The ownership lookup of `TransactionService.updateTransactionPaidStatus`:
identical `findFirst({ id, userId })` shape. -/
def updateTransactionPaidStatusLookup (txs : List TxRecord) (transactionId userId : ℕ) :
    OwnedLookupOutcome :=
  match txs.find? (fun t => t.id == transactionId && t.userId == userId) with
  | none => OwnedLookupOutcome.notFoundError
  | some _ => OwnedLookupOutcome.updated

instance {ε α : Type} [DecidableEq ε] [DecidableEq α] : DecidableEq (Except ε α) :=
  fun a b => by
    cases a <;> cases b
    case error.error e f => exact decidable_of_iff (e = f) (by simp)
    case error.ok => exact Decidable.isFalse (by simp)
    case ok.error => exact Decidable.isFalse (by simp)
    case ok.ok x y => exact decidable_of_iff (x = y) (by simp)

/-! ## Concrete witness data -/

def cardC2w : CreditCard := ⟨1, 1, 5, 10⟩

def dataC2w : CreateTransactionData :=
  { txType := TxType.EXPENSE, amount := 33333/100, date := ⟨2024, 0, 15⟩,
    description := "Compra", accountId := 1, categoryId := 1,
    creditCardId := some 1, userId := 1 }

def dataC2cex : CreateTransactionData :=
  { txType := TxType.EXPENSE, amount := 100, date := ⟨2024, 0, 31⟩,
    accountId := 1, categoryId := 1, userId := 1 }

def dataC9w : CreateTransactionData :=
  { txType := TxType.EXPENSE, amount := 50, date := ⟨2024, 5, 15⟩,
    accountId := 1, categoryId := 1, userId := 1 }

def todayC9w : CalDate := ⟨2024, 5, 15⟩

/-- The row `createTransaction dataC9w [] todayC9w` produces. -/
def txC9w : Transaction :=
  { txType := TxType.EXPENSE, amount := 50, date := ⟨2024, 5, 15⟩,
    paid := true, paidAt := some ⟨2024, 5, 15⟩,
    accountId := 1, categoryId := 1, userId := 1 }

/-! ## Ledger Aggregator -/

/-- Sum of a projected rational over a list (a Prisma `_sum` aggregate). -/
def sumOf {α : Type} (f : α → ℚ) (l : List α) : ℚ :=
  (l.map f).sum

/-- Calendar-day comparison of two stored dates (JavaScript `<=` on the
normalized timestamps). -/
def dateLE (a b : CalDate) : Bool :=
  decide (a.toKey ≤ b.toKey)

/-- The shared `where` shape of both used-amount queries:
`{ creditCardId, paid: false, type: EXPENSE }`. -/
def cardUnpaidExpense (card : CreditCard) (t : Transaction) : Bool :=
  t.creditCardId == some card.id && t.paid == false && t.txType == TxType.EXPENSE

/-- `GET /credit-cards` (batched implementation, src/server.ts file):
one grouped sum over unpaid non-recurring EXPENSE charges of the card, plus
an in-memory sum over unpaid recurring EXPENSE charges whose stored date is
at most the card's current invoice due date. -/
def usedAmountBatched (txs : List Transaction) (card : CreditCard) (today : CalDate) : ℚ :=
  let invoiceDueDate := calculateCurrentInvoiceDueDate today card.closingDay card.dueDay
  let nonRecurring := sumOf (fun t => t.amount) (txs.filter (fun t =>
    cardUnpaidExpense card t && t.isRecurringCharge == false))
  let recurring := sumOf (fun t => t.amount) (txs.filter (fun t =>
    cardUnpaidExpense card t && t.isRecurringCharge == true &&
    dateLE t.date invoiceDueDate))
  nonRecurring + recurring

/-- `GET /credit-cards` (aggregate implementation,
src/routes/creditCards.ts lines 44-62): one `aggregate` sum over **all**
unpaid EXPENSE charges of the card — no `isRecurringCharge` flag and no
date window. -/
def usedAmountAggregate (txs : List Transaction) (card : CreditCard) : ℚ :=
  sumOf (fun t => t.amount) (txs.filter (fun t => cardUnpaidExpense card t))

/-- The used-amount formula as the claim states it: unpaid non-recurring
EXPENSE charges over all time, plus unpaid recurring EXPENSE charges whose
ledger date falls within the currently open invoice. -/
def usedAmountSpec (txs : List Transaction) (card : CreditCard) (today : CalDate) : ℚ :=
  sumOf (fun t => t.amount) (txs.filter (fun t =>
    t.creditCardId == some card.id && !t.paid && t.txType == TxType.EXPENSE &&
    !t.isRecurringCharge)) +
  sumOf (fun t => t.amount) (txs.filter (fun t =>
    t.creditCardId == some card.id && !t.paid && t.txType == TxType.EXPENSE &&
    t.isRecurringCharge &&
    dateLE t.date (calculateCurrentInvoiceDueDate today card.closingDay card.dueDay)))

structure Account where
  id : ℕ
  userId : ℕ
  initialBalance : ℚ
deriving DecidableEq, Repr

structure Transfer where
  amount : ℚ
  date : CalDate
  fromAccountId : ℕ
  toAccountId : ℕ
deriving DecidableEq, Repr

/-- `GET /accounts/:id/balance`: fetch the account's transactions and both
transfer legs up to the cutoff, then fold: income adds, expense subtracts,
outgoing transfers subtract, incoming transfers add, starting from the
initial balance. -/
def accountBalanceSingle (account : Account) (txs : List Transaction)
    (transfers : List Transfer) (today : CalDate) : ℚ :=
  let transactions := txs.filter (fun t => t.accountId == account.id && dateLE t.date today)
  let transfersFrom := transfers.filter (fun t =>
    t.fromAccountId == account.id && dateLE t.date today)
  let transfersTo := transfers.filter (fun t =>
    t.toAccountId == account.id && dateLE t.date today)
  let balance1 := transactions.foldl (fun b t =>
    if t.txType == TxType.INCOME then b + t.amount else b - t.amount)
    account.initialBalance
  let balance2 := transfersFrom.foldl (fun b t => b - t.amount) balance1
  let balance3 := transfersTo.foldl (fun b t => b + t.amount) balance2
  balance3

/-- `GET /accounts/balances/all`: four grouped sums (income, expense,
outgoing and incoming transfer legs, each up to the target date), combined
as `initialBalance + income - expense - transfersFrom + transfersTo`. -/
def accountBalanceAll (account : Account) (txs : List Transaction)
    (transfers : List Transfer) (targetDate : CalDate) : ℚ :=
  let income := sumOf (fun t => t.amount) (txs.filter (fun t =>
    t.accountId == account.id && dateLE t.date targetDate && t.txType == TxType.INCOME))
  let expense := sumOf (fun t => t.amount) (txs.filter (fun t =>
    t.accountId == account.id && dateLE t.date targetDate && t.txType == TxType.EXPENSE))
  let transfersFrom := sumOf (fun t => t.amount) (transfers.filter (fun t =>
    t.fromAccountId == account.id && dateLE t.date targetDate))
  let transfersTo := sumOf (fun t => t.amount) (transfers.filter (fun t =>
    t.toAccountId == account.id && dateLE t.date targetDate))
  account.initialBalance + income - expense - transfersFrom + transfersTo

/-- The balance formula as the claim states it. -/
def balanceSpec (initialBalance : ℚ) (txs : List Transaction)
    (transfers : List Transfer) (accId : ℕ) (cutoff : CalDate) : ℚ :=
  initialBalance
  + sumOf (fun t => t.amount) (txs.filter (fun t =>
      t.accountId == accId && t.txType == TxType.INCOME && dateLE t.date cutoff))
  - sumOf (fun t => t.amount) (txs.filter (fun t =>
      t.accountId == accId && t.txType == TxType.EXPENSE && dateLE t.date cutoff))
  - sumOf (fun t => t.amount) (transfers.filter (fun t =>
      t.fromAccountId == accId && dateLE t.date cutoff))
  + sumOf (fun t => t.amount) (transfers.filter (fun t =>
      t.toAccountId == accId && dateLE t.date cutoff))

/-! ## Goals: `POST /goals/:id/contributions` -/

inductive GoalStatus where
  | ACTIVE
  | COMPLETED
  | CANCELLED
deriving DecidableEq, Repr

structure Goal where
  id : ℕ
  userId : ℕ
  targetAmount : ℚ
  currentAmount : ℚ
  status : GoalStatus
  completedAt : Option CalDate := none
deriving DecidableEq, Repr

structure GoalContribution where
  goalId : ℕ
  amount : ℚ
  date : CalDate
deriving DecidableEq, Repr

inductive ContributionError where
  | goalNotFound
  | goalNotActive
deriving DecidableEq, Repr

/-- `POST /goals/:id/contributions`: ownership-scoped goal lookup (404 when
absent), rejection of non-ACTIVE goals before any write (400), then — in one
database transaction — creation of the contribution row together with the
increment of the goal's `currentAmount`; afterwards, if the new amount
reaches the target and the goal is still ACTIVE, its status is flipped to
COMPLETED.  The returned pair is the post-state (goals, contributions); an
error writes nothing. -/
def addGoalContribution (goals : List Goal) (contributions : List GoalContribution)
    (goalId userId : ℕ) (amount : ℚ) (date now : CalDate) :
    Except ContributionError (List Goal × List GoalContribution) :=
  match goals.find? (fun g => g.id == goalId && g.userId == userId) with
  | none => .error ContributionError.goalNotFound
  | some goal =>
    if goal.status ≠ GoalStatus.ACTIVE then .error ContributionError.goalNotActive
    else
      let contribution : GoalContribution := ⟨goalId, amount, date⟩
      let contributions1 := contributions ++ [contribution]
      let updatedGoal := { goal with currentAmount := goal.currentAmount + amount }
      let goals1 := goals.map (fun g => if g.id == goalId then updatedGoal else g)
      let newCurrentAmount := updatedGoal.currentAmount
      let targetAmount := updatedGoal.targetAmount
      if newCurrentAmount ≥ targetAmount ∧ updatedGoal.status = GoalStatus.ACTIVE then
        let completedGoal := { updatedGoal with
          status := GoalStatus.COMPLETED, completedAt := some now }
        .ok (goals.map (fun g => if g.id == goalId then completedGoal else g),
          contributions1)
      else
        .ok (goals1, contributions1)

/-! ## Recurrence Engine (src/routes/recurring.ts)

`calculateNextDueDate`, the creation endpoint `POST /recurring`, the
extension endpoint `POST /recurring/generate` and `PATCH /:id/resume`.
The `while` loops of the source are modelled with an explicit
structural-recursion bound (`fuel`); the bound used by the wrappers always
suffices because, for an interval count of at least 1, every step moves the
date strictly forward (proved below). -/

inductive RecInterval where
  | DAY
  | WEEK
  | MONTH
  | YEAR
deriving DecidableEq, Repr

/-- `calculateNextDueDate(startDate, interval, intervalCount, lastDate?)`
(src/routes/recurring.ts lines 27-52): adds `intervalCount` units to
`lastDate` (or `startDate`), with JavaScript `setDate` / `setMonth` /
`setFullYear` overflow semantics. -/
def calculateNextDueDate (startDate : CalDate) (interval : RecInterval)
    (intervalCount : Int) (lastDate : Option CalDate) : CalDate :=
  let baseDate := lastDate.getD startDate
  match interval with
  | RecInterval.DAY => mkDate baseDate.year baseDate.month (baseDate.day + intervalCount)
  | RecInterval.WEEK =>
    mkDate baseDate.year baseDate.month (baseDate.day + intervalCount * 7)
  | RecInterval.MONTH => mkDate baseDate.year (baseDate.month + intervalCount) baseDate.day
  | RecInterval.YEAR => mkDate (baseDate.year + intervalCount) baseDate.month baseDate.day

/-- The occurrence reached after `n` steps of `calculateNextDueDate` from `c`. -/
def iterateNextDueDate (startDate : CalDate) (interval : RecInterval)
    (intervalCount : Int) : ℕ → CalDate → CalDate
  | 0, c => c
  | n + 1, c =>
    iterateNextDueDate startDate interval intervalCount n
      (calculateNextDueDate startDate interval intervalCount (some c))

/-- The date-generation `while` loop shared by `POST /recurring` and
`POST /recurring/generate`: collect occurrences while
`currentDate <= effectiveEndDate`, and return the first occurrence past the
end (stored as the new `nextDueDate`). -/
def generateDatesAux (startDate : CalDate) (interval : RecInterval) (intervalCount : Int)
    (endD : CalDate) : ℕ → CalDate → List CalDate × CalDate
  | 0, cur => ([], cur)
  | fuel + 1, cur =>
    if dateLE cur endD then
      let next := calculateNextDueDate startDate interval intervalCount (some cur)
      let rest := generateDatesAux startDate interval intervalCount endD fuel next
      (cur :: rest.1, rest.2)
    else ([], cur)

/-- Fuel bound for the generation loop: one more than the key span. -/
def genFuel (cur endD : CalDate) : ℕ :=
  (endD.toKey + 1 - cur.toKey).toNat + 1

def generateDates (startDate : CalDate) (interval : RecInterval) (intervalCount : Int)
    (endD cur : CalDate) : List CalDate × CalDate :=
  generateDatesAux startDate interval intervalCount endD (genFuel cur endD) cur

/-- `MONTHS_TO_GENERATE = 12`: the horizon `maxFutureDate = now.setMonth(now.getMonth() + 12)`. -/
def maxFutureDate (now : CalDate) : CalDate :=
  mkDate now.year (now.month + 12) now.day

/-- `endDate && endDate < maxFutureDate ? endDate : maxFutureDate`. -/
def effectiveEndDate (endDate : Option CalDate) (maxFuture : CalDate) : CalDate :=
  match endDate with
  | some e => if e.toKey < maxFuture.toKey then e else maxFuture
  | none => maxFuture

structure Recurrence where
  id : ℕ
  userId : ℕ
  rtype : TxType
  interval : RecInterval
  intervalCount : Int
  startDate : CalDate
  endDate : Option CalDate := none
  nextDueDate : Option CalDate := none
  description : Option String := none
  amount : Option ℚ := none
  isActive : Bool := true
  accountId : Option ℕ := none
  categoryId : Option ℕ := none
  creditCardId : Option ℕ := none
deriving DecidableEq, Repr

/-- Validated input of `POST /recurring` (the zod schema restricts
`intervalCount` to 1..30). -/
structure CreateRecurringData where
  rtype : TxType
  amount : ℚ
  description : String
  interval : RecInterval
  intervalCount : Int
  startDate : CalDate
  endDate : Option CalDate := none
  accountId : ℕ
  categoryId : ℕ
  creditCardId : Option ℕ := none
deriving DecidableEq, Repr

/-- `POST /recurring`: generate all occurrence dates from `startDate` up to
`effectiveEndDate`, create the Recurrence row with `nextDueDate` set to the
first occurrence past the horizon, and one unpaid `isRecurringCharge`
transaction per generated date, all linked by `recurrenceId`. -/
def createRecurring (data : CreateRecurringData) (userId recId : ℕ) (now : CalDate) :
    Recurrence × List Transaction :=
  let maxFuture := maxFutureDate now
  let effectiveEnd := effectiveEndDate data.endDate maxFuture
  let gen := generateDates data.startDate data.interval data.intervalCount effectiveEnd
    data.startDate
  let transactionDates := gen.1
  let nextDueDate := gen.2
  let recurrence : Recurrence := {
    id := recId
    userId := userId
    rtype := data.rtype
    interval := data.interval
    intervalCount := data.intervalCount
    startDate := data.startDate
    endDate := data.endDate
    nextDueDate := some nextDueDate
    description := some data.description
    amount := some data.amount
    isActive := true
    accountId := some data.accountId
    categoryId := some data.categoryId
    creditCardId := data.creditCardId }
  let transactions := transactionDates.map (fun date =>
    ({ txType := data.rtype
       amount := data.amount
       date := date
       description := data.description
       accountId := data.accountId
       categoryId := data.categoryId
       creditCardId := data.creditCardId
       recurrenceId := some recId
       paid := false
       isRecurringCharge := true
       userId := userId } : Transaction))
  (recurrence, transactions)

/-- Same calendar day: the extension guard queries
`date ∈ [new Date(y, m, d), new Date(y, m, d + 1))`, i.e. equality of the
stored calendar day. -/
def sameCalendarDay (a b : CalDate) : Bool :=
  a.year == b.year && a.month == b.month && a.day == b.day

/-- The per-occurrence idempotence guard:
`findFirst({ recurrenceId, date: same calendar day })`. -/
def txExistsForDay (txs : List Transaction) (recId : ℕ) (d : CalDate) : Bool :=
  txs.any (fun t => t.recurrenceId == some recId && sameCalendarDay t.date d)

/-- The `where` filter of `POST /recurring/generate`: active recurrences
with `nextDueDate <= maxFutureDate` (SQL null comparison excludes a null
`nextDueDate`) and `endDate` null or `>= now`. -/
def recurrenceSelected (r : Recurrence) (now maxFuture : CalDate) : Bool :=
  r.isActive &&
  (match r.nextDueDate with
   | some nd => dateLE nd maxFuture
   | none => false) &&
  (match r.endDate with
   | none => true
   | some e => decide (now.toKey ≤ e.toKey))

/-- The inner creation loop of `POST /recurring/generate`: for each
occurrence date, create a transaction only when none exists for that
recurrence on that calendar day, checking against the ledger as it grows. -/
def appendMissing (r : Recurrence) (userId : ℕ) (amt : ℚ) (acc cat : ℕ) :
    List CalDate → List Transaction → List Transaction × ℕ
  | [], txs => (txs, 0)
  | d :: rest, txs =>
    if txExistsForDay txs r.id d then appendMissing r userId amt acc cat rest txs
    else
      let tx : Transaction := {
        txType := r.rtype
        amount := amt
        date := d
        description := r.description.getD "Transação recorrente"
        accountId := acc
        categoryId := cat
        creditCardId := r.creditCardId
        recurrenceId := some r.id
        paid := false
        isRecurringCharge := true
        userId := userId }
      let res := appendMissing r userId amt acc cat rest (txs ++ [tx])
      (res.1, res.2 + 1)

/-- `POST /recurring/generate`, per-recurrence: recurrences failing the
selection filter, or missing amount/account/category, are left untouched;
otherwise occurrences from `nextDueDate` (or `startDate`) up to the
effective end are materialized behind the per-day guard and `nextDueDate`
advances to the loop's final date.  Returns the updated recurrence list,
the grown ledger and the number of created transactions. -/
def generateRun (now maxFuture : CalDate) (userId : ℕ) :
    List Recurrence → List Transaction → List Recurrence × List Transaction × ℕ
  | [], txs => ([], txs, 0)
  | r :: rest, txs =>
    if recurrenceSelected r now maxFuture then
      match r.amount, r.accountId, r.categoryId with
      | some amt, some acc, some cat =>
        let effectiveEnd := effectiveEndDate r.endDate maxFuture
        let start := match r.nextDueDate with
          | some nd => nd
          | none => r.startDate
        let gen := generateDates r.startDate r.interval r.intervalCount effectiveEnd start
        let app := appendMissing r userId amt acc cat gen.1 txs
        let r1 := { r with nextDueDate := some gen.2 }
        let res := generateRun now maxFuture userId rest app.1
        (r1 :: res.1, res.2.1, app.2 + res.2.2)
      | _, _, _ =>
        let res := generateRun now maxFuture userId rest txs
        (r :: res.1, res.2.1, res.2.2)
    else
      let res := generateRun now maxFuture userId rest txs
      (r :: res.1, res.2.1, res.2.2)

structure LedgerState where
  recurrences : List Recurrence
  transactions : List Transaction
deriving DecidableEq, Repr

/-- The whole `POST /recurring/generate` endpoint for one user. -/
def generateEndpoint (now : CalDate) (userId : ℕ) (s : LedgerState) : LedgerState × ℕ :=
  let maxFuture := maxFutureDate now
  let res := generateRun now maxFuture userId s.recurrences s.transactions
  ({ recurrences := res.1, transactions := res.2.1 }, res.2.2)

/-- Per-recurrence data hygiene assumed by the loop lemmas: the zod schema
guarantees `intervalCount ≥ 1`, and all stored dates are normalized
calendar dates. -/
def RecurrenceWF (r : Recurrence) : Prop :=
  1 ≤ r.intervalCount ∧ r.startDate.Valid ∧
  (∀ nd, r.nextDueDate = some nd → nd.Valid)

/-- No two transactions of the same recurrence share a calendar day. -/
def NoDupRecDay (txs : List Transaction) : Prop :=
  List.Pairwise (fun a b => ∀ rid, a.recurrenceId = some rid →
    b.recurrenceId = some rid → sameCalendarDay a.date b.date = false) txs

/-- The fast-forward `while` loop of `PATCH /recurring/:id/resume`. -/
def resumeAux (startDate : CalDate) (interval : RecInterval) (intervalCount : Int)
    (today : CalDate) : ℕ → CalDate → CalDate
  | 0, cur => cur
  | fuel + 1, cur =>
    if decide (cur.toKey < today.toKey) then
      resumeAux startDate interval intervalCount today fuel
        (calculateNextDueDate startDate interval intervalCount (some cur))
    else cur

/-- `PATCH /recurring/:id/resume`: reactivate and fast-forward
`nextDueDate` (or `startDate`) to the first occurrence not before today. -/
def resumeRecurrence (r : Recurrence) (today : CalDate) : Recurrence :=
  let nd0 := r.nextDueDate.getD r.startDate
  let nd := resumeAux r.startDate r.interval r.intervalCount today
    ((today.toKey + 1 - nd0.toKey).toNat + 1) nd0
  { r with isActive := true, nextDueDate := some nd }

/-- The loop-start date of one extension step: `nextDueDate` or `startDate`. -/
def recStart (r : Recurrence) : CalDate :=
  match r.nextDueDate with
  | some nd => nd
  | none => r.startDate

/-- The generation result of one extension step of recurrence `r`. -/
def recGen (maxFuture : CalDate) (r : Recurrence) : List CalDate × CalDate :=
  generateDates r.startDate r.interval r.intervalCount
    (effectiveEndDate r.endDate maxFuture) (recStart r)

def dataC5w : CreateRecurringData :=
  { rtype := TxType.EXPENSE, amount := 25, description := "Assinatura",
    interval := RecInterval.MONTH, intervalCount := 1, startDate := ⟨2024, 0, 1⟩,
    endDate := some ⟨2024, 1, 20⟩, accountId := 1, categoryId := 1 }

def recC6w : Recurrence :=
  { id := 1, userId := 1, rtype := TxType.EXPENSE, interval := RecInterval.MONTH,
    intervalCount := 1, startDate := ⟨2024, 0, 1⟩, endDate := some ⟨2024, 1, 20⟩,
    nextDueDate := some ⟨2024, 0, 1⟩, description := some "Assinatura",
    amount := some 25, isActive := true, accountId := some 1, categoryId := some 1 }

def stateC6w : LedgerState :=
  { recurrences := [recC6w], transactions := [] }

/-- `recC6w` after one extension run on 2024-01-15: `nextDueDate` advanced
to 2024-03-01. -/
def recC6w2 : Recurrence :=
  { recC6w with nextDueDate := some ⟨2024, 2, 1⟩ }

/-! # Theorems -/

theorem daysInMonth_bounds (y m : Int) : 28 ≤ daysInMonth y m ∧ daysInMonth y m ≤ 31 := by
  unfold daysInMonth
  split
  · split <;> omega
  · split <;> omega

theorem toKey_lt_of_lex (a b : CalDate) (ha : a.Valid) (hb : b.Valid)
    (h : a.year < b.year ∨ (a.year = b.year ∧ a.month < b.month) ∨
         (a.year = b.year ∧ a.month = b.month ∧ a.day < b.day)) :
    a.toKey < b.toKey := by
  obtain ⟨ham0, ham1, had1, had2⟩ := ha
  obtain ⟨hbm0, hbm1, hbd1, hbd2⟩ := hb
  have ha31 := daysInMonth_bounds a.year a.month
  have hb31 := daysInMonth_bounds b.year b.month
  unfold CalDate.toKey
  omega

theorem toKey_inj_of_valid (a b : CalDate) (ha : a.Valid) (hb : b.Valid)
    (h : a.toKey = b.toKey) : a = b := by
  obtain ⟨ham0, ham1, had1, had2⟩ := ha
  obtain ⟨hbm0, hbm1, hbd1, hbd2⟩ := hb
  have ha31 := daysInMonth_bounds a.year a.month
  have hb31 := daysInMonth_bounds b.year b.month
  unfold CalDate.toKey at h
  obtain ⟨ya, ma, da⟩ := a
  obtain ⟨yb, mb, db⟩ := b
  simp only at *
  congr 1 <;> omega

theorem rollForwardAux_valid (fuel : ℕ) :
    ∀ y m d : Int, 0 ≤ m → m ≤ 11 → 1 ≤ d → d.toNat ≤ fuel →
    (rollForwardAux fuel y m d).Valid := by
  induction fuel with
  | zero =>
    intro y m d _ _ hd hf
    omega
  | succ fuel ih =>
    intro y m d hm0 hm1 hd hf
    have hb := daysInMonth_bounds y m
    rw [rollForwardAux]
    split
    · exact ⟨hm0, hm1, hd, by assumption⟩
    · split
      · exact ih (y + 1) 0 (d - daysInMonth y m) (by omega) (by omega) (by omega) (by omega)
      · exact ih y (m + 1) (d - daysInMonth y m) (by omega) (by omega) (by omega) (by omega)

theorem rollBackAux_valid (fuel : ℕ) :
    ∀ y m d : Int, 0 ≤ m → m ≤ 11 → d ≤ daysInMonth y m → (1 - d).toNat ≤ fuel →
    (rollBackAux fuel y m d).Valid := by
  induction fuel with
  | zero =>
    intro y m d hm0 hm1 hd hf
    have : 1 ≤ d := by omega
    rw [rollBackAux]
    exact ⟨hm0, hm1, this, hd⟩
  | succ fuel ih =>
    intro y m d hm0 hm1 hd hf
    rw [rollBackAux]
    split
    · exact ⟨hm0, hm1, by assumption, hd⟩
    · split
      · have hb := daysInMonth_bounds (y - 1) 11
        exact ih (y - 1) 11 (d + daysInMonth (y - 1) 11) (by omega) (by omega) (by omega)
          (by omega)
      · have hb := daysInMonth_bounds y (m - 1)
        exact ih y (m - 1) (d + daysInMonth y (m - 1)) (by omega) (by omega) (by omega)
          (by omega)

theorem mkDate_valid (y m d : Int) : (mkDate y m d).Valid := by
  unfold mkDate
  have h0 : 0 ≤ m % 12 := Int.emod_nonneg m (by omega)
  have h1 : m % 12 < 12 := Int.emod_lt_of_pos m (by omega)
  split
  · exact rollForwardAux_valid _ _ _ _ h0 (by omega) (by assumption) (by omega)
  · have hb := daysInMonth_bounds (y + m / 12) (m % 12)
    exact rollBackAux_valid _ _ _ _ h0 (by omega) (by omega) (by omega)

/-- When the requested day exists in the (already normalized) requested month,
`mkDate` is the identity — no overflow happens. -/
theorem mkDate_eq_of_valid (y m d : Int) (hm0 : 0 ≤ m) (hm1 : m ≤ 11)
    (hd1 : 1 ≤ d) (hd2 : d ≤ daysInMonth y m) : mkDate y m d = ⟨y, m, d⟩ := by
  unfold mkDate
  have h12 : m / 12 = 0 := by omega
  have h12' : m % 12 = m := by omega
  rw [if_pos hd1, h12, h12', add_zero]
  have : ∃ fuel, d.toNat = fuel := ⟨d.toNat, rfl⟩
  obtain ⟨fuel, hf⟩ := this
  rw [hf]
  cases fuel with
  | zero => omega
  | succ fuel => rw [rollForwardAux, if_pos hd2]

theorem rollForwardAux_toKey_ge (fuel : ℕ) :
    ∀ y m d : Int, m ≤ 11 → 1 ≤ d → d.toNat ≤ fuel →
    512 * y + 32 * m + d ≤ (rollForwardAux fuel y m d).toKey := by
  induction fuel with
  | zero =>
    intro y m d _ hd hf
    omega
  | succ fuel ih =>
    intro y m d hm1 hd hf
    have hb := daysInMonth_bounds y m
    rw [rollForwardAux]
    split
    · simp only [CalDate.toKey]; omega
    · split
      · have h := ih (y + 1) 0 (d - daysInMonth y m) (by omega) (by omega) (by omega)
        omega
      · have h := ih y (m + 1) (d - daysInMonth y m) (by omega) (by omega) (by omega)
        omega

/-- The constructed date never falls before the (month-normalized) requested
position: `mkDate y m d` is at least as late as day `d` of month `m`. -/
theorem mkDate_toKey_ge (y m d : Int) (hm : 0 ≤ m) (hd : 1 ≤ d) :
    512 * y + 32 * m + d ≤ (mkDate y m d).toKey := by
  unfold mkDate
  rw [if_pos hd]
  have h0 : 0 ≤ m % 12 := Int.emod_nonneg m (by omega)
  have h1 : m % 12 < 12 := Int.emod_lt_of_pos m (by omega)
  have h := rollForwardAux_toKey_ge d.toNat (y + m / 12) (m % 12) d (by omega) hd (by omega)
  have hq : 0 ≤ m / 12 := Int.ediv_nonneg hm (by omega)
  have hmod : m % 12 + 12 * (m / 12) = m := Int.emod_add_ediv m 12
  omega

/-! ## Claim C1 -/

/-- C1 (amended): for a valid purchase date and `closingDay`, `dueDay` in
[1, 31], **provided the invoice month actually contains day `dueDay`**,
`calculateInvoiceDueDate` returns the date whose day-of-month is `dueDay`
and whose month is the purchase month when `day(p) ≤ closingDay`, otherwise
the following month, December wrapping to January of the next year.
(Without the proviso the native day overflow of `new Date` rolls the result
into the following month — see the counterexample.) -/
theorem C1_invoice_due_date (p : CalDate) (closingDay dueDay : Int)
    (hp : p.Valid) (hd1 : 1 ≤ dueDay) (hd31 : dueDay ≤ 31)
    (hc1 : 1 ≤ closingDay) (hc31 : closingDay ≤ 31)
    (hfit : dueDay ≤ daysInMonth
      (if p.day ≤ closingDay then p.year else if p.month = 11 then p.year + 1 else p.year)
      (if p.day ≤ closingDay then p.month else if p.month = 11 then 0 else p.month + 1)) :
    calculateInvoiceDueDate p closingDay dueDay =
      ⟨if p.day ≤ closingDay then p.year else if p.month = 11 then p.year + 1 else p.year,
       if p.day ≤ closingDay then p.month else if p.month = 11 then 0 else p.month + 1,
       dueDay⟩ := by
  obtain ⟨hm0, hm1, hday1, hday2⟩ := hp
  unfold calculateInvoiceDueDate
  by_cases hcl : p.day ≤ closingDay
  · simp only [if_pos hcl] at hfit ⊢
    have hnot : ¬ (p.month > 11) := by omega
    simp only [if_neg hnot]
    exact mkDate_eq_of_valid _ _ _ hm0 hm1 hd1 hfit
  · simp only [if_neg hcl] at hfit ⊢
    by_cases h11 : p.month = 11
    · have hgt : p.month + 1 > 11 := by omega
      simp only [if_pos hgt, if_pos h11] at hfit ⊢
      exact mkDate_eq_of_valid _ _ _ (by omega) (by omega) hd1 hfit
    · have hgt : ¬ (p.month + 1 > 11) := by omega
      simp only [if_neg hgt, if_neg h11] at hfit ⊢
      exact mkDate_eq_of_valid _ _ _ (by omega) (by omega) hd1 hfit

/-- Witness for C1 at the spec's December-wrap scenario: purchase 2023-12-31
with closingDay 5, dueDay 10 bills to 2024-01-10. -/
theorem C1_invoice_due_date_witness :
    calculateInvoiceDueDate ⟨2023, 11, 31⟩ 5 10 = ⟨2024, 0, 10⟩ := by
  have h := C1_invoice_due_date ⟨2023, 11, 31⟩ 5 10 (by decide) (by decide) (by decide)
    (by decide) (by decide) (by decide)
  simpa using h

/-- C1 counterexample: the claim asserts the result's day-of-month is `dueDay`
for **every** `dueDay` in [1, 31], but for a purchase on 2024-01-31 with
closingDay 5 and dueDay 30 the invoice month is February 2024 (29 days), and
`new Date(2024, 1, 30)` natively overflows to 2024-03-01 — day-of-month 1,
not 30, and month March, not the following month February. -/
theorem C1_counterexample :
    calculateInvoiceDueDate ⟨2024, 0, 31⟩ 5 30 = ⟨2024, 2, 1⟩ ∧
    ¬ ((calculateInvoiceDueDate ⟨2024, 0, 31⟩ 5 30).day = 30 ∧
       (calculateInvoiceDueDate ⟨2024, 0, 31⟩ 5 30).month = 1) := by
  constructor
  · decide
  · decide

/-! ## Claim C2 -/

theorem getElem?_map_range {α : Type} (f : ℕ → α) (N j : ℕ) (hj : j < N) :
    ((List.range N).map f)[j]? = some (f j) := by
  rw [List.getElem?_map, List.getElem?_range hj]
  rfl

/-- C2 (amended): `createInstallmentTransactions` creates exactly `N` rows,
numbered 1..N, each storing the caller-supplied per-installment amount
unchanged; the i-th installment calendar date is the purchase date advanced
by `i - 1` months keeping the original day-of-month — **literally preserving
the day-of-month only when the target month contains that day** (otherwise
the native `Date.UTC` day overflow rolls the date into the following month —
see the counterexample); with a card the stored ledger date is
`calculateInvoiceDueDate` of the installment calendar date, the stored
purchase date is that installment calendar date, and the description is
suffixed with `i/N`; without a card the ledger date is the installment
calendar date itself, no purchase date is stored and the description is
unchanged. -/
theorem C2_installments (data : CreateTransactionData) (N : ℕ)
    (cards : List CreditCard) (recId : ℕ) (rows : List Transaction) (p : CalDate)
    (hN : 2 ≤ N)
    (hpdef : p = normalizeDate (data.purchaseDate.getD data.date))
    (hp : p.Valid)
    (hok : createInstallmentTransactions data N cards recId = Except.ok rows) :
    rows.length = N ∧
    ∀ j, j < N →
      ∃ row, rows[j]? = some row ∧
        row.installmentNumber = some (j + 1) ∧
        row.totalInstallments = some N ∧
        row.amount = data.amount ∧
        row.recurrenceId = some recId ∧
        row.paid = false ∧
        (p.day ≤ daysInMonth (p.year + (p.month + (j : Int)) / 12)
            ((p.month + (j : Int)) % 12) →
          installmentCalendarDate p ((j : Int)) =
            ⟨p.year + (p.month + (j : Int)) / 12, (p.month + (j : Int)) % 12, p.day⟩) ∧
        (data.creditCardId = none →
          row.date = installmentCalendarDate p ((j : Int)) ∧
          row.purchaseDate = none ∧
          row.description = data.description) ∧
        (∀ cid c, data.creditCardId = some cid → findCard cards cid = some c →
          row.date = normalizeDate (calculateInvoiceDueDate
            (installmentCalendarDate p ((j : Int))) c.closingDay c.dueDay) ∧
          row.purchaseDate = some (installmentCalendarDate p ((j : Int))) ∧
          row.description =
            data.description ++ " " ++ Nat.repr (j + 1) ++ "/" ++ Nat.repr N) := by
  have hmj : ∀ j : ℕ, ((j + 1 : ℕ) : Int) - 1 = (j : Int) := by
    intro j
    push_cast
    ring
  have hfitLemma : ∀ j : ℕ, p.day ≤ daysInMonth (p.year + (p.month + (j : Int)) / 12)
      ((p.month + (j : Int)) % 12) →
      installmentCalendarDate p ((j : Int)) =
        ⟨p.year + (p.month + (j : Int)) / 12, (p.month + (j : Int)) % 12, p.day⟩ := by
    intro j hfit
    unfold installmentCalendarDate
    have h0 : 0 ≤ (p.month + (j : Int)) % 12 := Int.emod_nonneg _ (by omega)
    have h1 : (p.month + (j : Int)) % 12 < 12 := Int.emod_lt_of_pos _ (by omega)
    exact mkDate_eq_of_valid _ _ _ h0 (by omega) hp.2.2.1 hfit
  cases hcc : data.creditCardId with
  | none =>
    simp only [createInstallmentTransactions, hcc, Except.ok.injEq] at hok
    rw [← hpdef] at hok
    subst hok
    refine ⟨by simp, ?_⟩
    intro j hj
    refine ⟨_, getElem?_map_range _ N j hj, ?_⟩
    refine ⟨rfl, rfl, rfl, rfl, rfl, hfitLemma j, ?_, ?_⟩
    · intro _
      refine ⟨?_, rfl, rfl⟩
      show installmentCalendarDate p (((j + 1 : ℕ) : Int) - 1) = _
      rw [hmj]
    · intro cid c h1c h2c
      cases h1c
  | some cid =>
    cases hfc : findCard cards cid with
    | none =>
      simp only [createInstallmentTransactions, hcc, hfc] at hok
      cases hok
    | some c =>
      simp only [createInstallmentTransactions, hcc, hfc, Except.ok.injEq] at hok
      rw [← hpdef] at hok
      subst hok
      refine ⟨by simp, ?_⟩
      intro j hj
      refine ⟨_, getElem?_map_range _ N j hj, ?_⟩
      refine ⟨rfl, rfl, rfl, rfl, rfl, hfitLemma j, ?_, ?_⟩
      · intro h
        cases h
      · intro cid' c' h1c h2c
        cases h1c
        rw [hfc] at h2c
        cases h2c
        refine ⟨?_, ?_, rfl⟩
        · show normalizeDate (calculateInvoiceDueDate
            (installmentCalendarDate p (((j + 1 : ℕ) : Int) - 1)) c.closingDay c.dueDay) = _
          rw [hmj]
        · show some (installmentCalendarDate p (((j + 1 : ℕ) : Int) - 1)) = _
          rw [hmj]

/-- Witness for C2 at the spec's installment scenario: 333.33 per
installment, purchase 2024-01-15, 3 installments on a card with closingDay 5
and dueDay 10 create exactly 3 rows. -/
theorem C2_installments_witness :
    (createInstallmentTransactions dataC2w 3 [cardC2w] 7).map List.length =
      Except.ok 3 := by
  cases hok : createInstallmentTransactions dataC2w 3 [cardC2w] 7 with
  | error e =>
    cases e
    exact absurd hok (by decide)
  | ok rows =>
    have h := C2_installments dataC2w 3 [cardC2w] 7 rows ⟨2024, 0, 15⟩
      (by omega) (by decide) (by decide) hok
    simp [Except.map, h.1]

/-- C2 counterexample: without a card, a purchase on 2024-01-31 split into 2
installments stores the second row's calendar (and ledger) date as
2024-03-02 — `Date.UTC(2024, 1, 31)` overflows past 29-day February — so the
day-of-month 31 is **not** preserved, contradicting the claim's unqualified
"advanced by (i-1) months preserving day-of-month". -/
theorem C2_counterexample :
    (createInstallmentTransactions dataC2cex 2 [] 7).map
        (fun rows => (rows.getD 1 dummyTx).date) = Except.ok ⟨2024, 2, 2⟩ ∧
    ¬ ((2024 : Int) = 2024 ∧ (2 : Int) = 1 ∧ (2 : Int) = 31) := by
  constructor
  · decide
  · decide

/-! ## Claim C9 -/

theorem isToday_eq_true_iff (a b : CalDate) : isToday a b = true ↔ a = b := by
  unfold isToday
  cases a
  cases b
  simp [Bool.and_eq_true, beq_iff_eq, CalDate.mk.injEq, and_assoc]

/-- C9 (confirmed): a created transaction is auto-marked paid — with
`paidAt` set to now — exactly when it has no credit card, its type is
EXPENSE, and its stored ledger date equals today; in particular a card
charge is never auto-paid and a cardless EXPENSE dated on another day is
created unpaid. -/
theorem C9_auto_pay (data : CreateTransactionData) (cards : List CreditCard)
    (today : CalDate) (tx : Transaction)
    (hok : createTransaction data cards today = Except.ok tx) :
    (tx.paid = true ↔
      data.creditCardId = none ∧ data.txType = TxType.EXPENSE ∧ tx.date = today) ∧
    tx.paidAt = (if tx.paid then some today else none) := by
  cases hcc : data.creditCardId with
  | none =>
    simp only [createTransaction, hcc, Except.ok.injEq] at hok
    subst hok
    constructor
    · simp [Option.isNone, Bool.and_eq_true, beq_iff_eq, isToday_eq_true_iff, normalizeDate,
        and_assoc]
    · rfl
  | some cid =>
    cases hfc : findCard cards cid with
    | none =>
      simp only [createTransaction, hcc, hfc] at hok
      cases hok
    | some c =>
      simp only [createTransaction, hcc, hfc, Except.ok.injEq] at hok
      subst hok
      constructor
      · simp [Option.isNone]
      · rfl

/-- Witness for C9: a cardless EXPENSE dated today is created paid with
`paidAt` = now. -/
theorem C9_auto_pay_witness :
    createTransaction dataC9w [] todayC9w = Except.ok txC9w ∧
    (txC9w.paid = true ↔
      dataC9w.creditCardId = none ∧ dataC9w.txType = TxType.EXPENSE ∧
      txC9w.date = todayC9w) := by
  have hok : createTransaction dataC9w [] todayC9w = Except.ok txC9w := by decide
  exact ⟨hok, (C9_auto_pay dataC9w [] todayC9w txC9w hok).1⟩

/-! ## Claim C10 -/

theorem find_owned_eq_none (txs : List TxRecord) (tid uid : ℕ)
    (hids : List.Pairwise (fun a b => a.id ≠ b.id) txs)
    (t : TxRecord) (hf : findTx txs tid = some t) (hne : t.userId ≠ uid) :
    txs.find? (fun r => r.id == tid && r.userId == uid) = none := by
  induction txs with
  | nil => simp [findTx] at hf
  | cons a l ih =>
    obtain ⟨hhead, htail⟩ := List.pairwise_cons.mp hids
    unfold findTx at hf
    by_cases ha : a.id = tid
    · rw [List.find?_cons_of_pos _ (by simpa using ha)] at hf
      obtain rfl : a = t := by injection hf
      rw [List.find?_cons_of_neg _ (by simp [hne])]
      apply List.find?_eq_none.mpr
      intro x hx
      have hxid : x.id ≠ tid := by
        have := hhead x hx
        omega
      simp [hxid]
    · rw [List.find?_cons_of_neg _ (by simpa using ha)] at hf
      rw [List.find?_cons_of_neg _ (by simp [ha])]
      exact ih htail hf

theorem find_owned_eq_none_of_absent (txs : List TxRecord) (tid uid : ℕ)
    (hf : findTx txs tid = none) :
    txs.find? (fun r => r.id == tid && r.userId == uid) = none := by
  apply List.find?_eq_none.mpr
  intro x hx
  have hxid := List.find?_eq_none.mp hf x hx
  simp at hxid
  simp [hxid]

/-! ## Claim C10 -/

/-- C10 (amended): `deleteTransaction` fails with the distinct `NOT_FOUND` /
`FORBIDDEN` errors, **and `getTransactionById` also distinguishes the two
situations** (null result for an absent row, `ForbiddenError` for a
foreign-owned one — mapped to 404 / 403 by its route); the remaining
transaction operations (`updateTransaction`,
`updateTransactionPaidStatus`) report an absent row and a foreign-owned row
identically, as the same `Transaction not found` outcome. -/
theorem C10_ownership_errors (txs : List TxRecord) (tid uid : ℕ)
    (hids : List.Pairwise (fun a b => a.id ≠ b.id) txs) :
    (findTx txs tid = none →
      deleteTransaction txs tid uid = DeleteOutcome.notFoundError ∧
      getTransactionById txs tid uid = GetByIdOutcome.nullResult ∧
      updateTransactionLookup txs tid uid = OwnedLookupOutcome.notFoundError ∧
      updateTransactionPaidStatusLookup txs tid uid = OwnedLookupOutcome.notFoundError) ∧
    (∀ t, findTx txs tid = some t → t.userId ≠ uid →
      deleteTransaction txs tid uid = DeleteOutcome.forbiddenError ∧
      getTransactionById txs tid uid = GetByIdOutcome.forbiddenThrown ∧
      updateTransactionLookup txs tid uid = OwnedLookupOutcome.notFoundError ∧
      updateTransactionPaidStatusLookup txs tid uid = OwnedLookupOutcome.notFoundError) := by
  constructor
  · intro hnone
    refine ⟨?_, ?_, ?_, ?_⟩
    · unfold deleteTransaction
      rw [hnone]
    · unfold getTransactionById
      rw [hnone]
    · unfold updateTransactionLookup
      rw [find_owned_eq_none_of_absent txs tid uid hnone]
    · unfold updateTransactionPaidStatusLookup
      rw [find_owned_eq_none_of_absent txs tid uid hnone]
  · intro t hsome hne
    refine ⟨?_, ?_, ?_, ?_⟩
    · unfold deleteTransaction
      rw [hsome]
      simp [hne]
    · unfold getTransactionById
      rw [hsome]
      simp [hne]
    · unfold updateTransactionLookup
      rw [find_owned_eq_none txs tid uid hids t hsome hne]
    · unfold updateTransactionPaidStatusLookup
      rw [find_owned_eq_none txs tid uid hids t hsome hne]

/-- C10 counterexample: `getTransactionById` is an operation other than
deletion, yet an absent transaction (null, mapped to 404) and a
foreign-owned one (`ForbiddenError`, mapped to 403) produce different
outcomes — they are not "reported as the same NotFound outcome". -/
theorem C10_counterexample :
    getTransactionById [⟨1, 2⟩] 1 1 = GetByIdOutcome.forbiddenThrown ∧
    getTransactionById [⟨1, 2⟩] 99 1 = GetByIdOutcome.nullResult ∧
    GetByIdOutcome.forbiddenThrown ≠ GetByIdOutcome.nullResult := by
  refine ⟨by decide, by decide, by decide⟩

/-- Witness for C10 on a one-row ledger owned by user 2, queried by user 1. -/
theorem C10_ownership_errors_witness :
    deleteTransaction [⟨1, 2⟩] 1 1 = DeleteOutcome.forbiddenError ∧
    getTransactionById [⟨1, 2⟩] 1 1 = GetByIdOutcome.forbiddenThrown ∧
    updateTransactionLookup [⟨1, 2⟩] 1 1 = OwnedLookupOutcome.notFoundError ∧
    updateTransactionPaidStatusLookup [⟨1, 2⟩] 1 1 = OwnedLookupOutcome.notFoundError :=
  (C10_ownership_errors [⟨1, 2⟩] 1 1 (by simp)).2 ⟨1, 2⟩ (by decide) (by decide)

/-! ## Claim C3 -/

theorem sumOf_filter_split {α : Type} (f : α → ℚ) (l : List α) (pp qq : α → Bool) :
    sumOf f (l.filter pp) =
      sumOf f (l.filter (fun t => pp t && qq t)) +
      sumOf f (l.filter (fun t => pp t && !qq t)) := by
  induction l with
  | nil => simp [sumOf]
  | cons a l ih =>
    by_cases hp : pp a
    · by_cases hq : qq a <;>
        simp [List.filter_cons, hp, hq, sumOf, List.sum_cons] at ih ⊢ <;>
        rw [ih] <;> ring
    · simp [List.filter_cons, hp, sumOf] at ih ⊢
      rw [ih]

theorem filter_congr_sumOf {α : Type} (f : α → ℚ) (l : List α) (pp qq : α → Bool)
    (h : ∀ x, pp x = qq x) : sumOf f (l.filter pp) = sumOf f (l.filter qq) := by
  rw [List.filter_congr (fun x _ => h x)]

/-- C3 (amended): the **batched** card-listing implementation reports the
claim's used-amount formula — all-time unpaid non-recurring EXPENSE charges
plus unpaid recurring EXPENSE charges dated within the currently open
invoice — while the **aggregate** card-listing implementation reports that
formula **plus** every unpaid recurring EXPENSE charge dated past the open
invoice (it sums all unpaid EXPENSE rows without the recurring-charge
window). -/
theorem C3_used_amount (txs : List Transaction) (card : CreditCard) (today : CalDate) :
    usedAmountBatched txs card today = usedAmountSpec txs card today ∧
    usedAmountAggregate txs card = usedAmountSpec txs card today +
      sumOf (fun t => t.amount) (txs.filter (fun t =>
        cardUnpaidExpense card t && t.isRecurringCharge &&
        !(dateLE t.date (calculateCurrentInvoiceDueDate today card.closingDay card.dueDay)))) := by
  have hsplit1 := sumOf_filter_split (fun t => t.amount) txs
    (fun t => cardUnpaidExpense card t) (fun t => t.isRecurringCharge)
  have hsplit2 := sumOf_filter_split (fun t => t.amount) txs
    (fun t => cardUnpaidExpense card t && t.isRecurringCharge)
    (fun t => dateLE t.date (calculateCurrentInvoiceDueDate today card.closingDay card.dueDay))
  have e1 : sumOf (fun t => t.amount) (txs.filter (fun t =>
      cardUnpaidExpense card t && t.isRecurringCharge == false)) =
      sumOf (fun t => t.amount) (txs.filter (fun t =>
      t.creditCardId == some card.id && !t.paid && t.txType == TxType.EXPENSE &&
      !t.isRecurringCharge)) := by
    apply filter_congr_sumOf
    intro x
    unfold cardUnpaidExpense
    cases x.paid <;> cases x.isRecurringCharge <;> simp
  have e2 : sumOf (fun t => t.amount) (txs.filter (fun t =>
      cardUnpaidExpense card t && t.isRecurringCharge == true &&
      dateLE t.date (calculateCurrentInvoiceDueDate today card.closingDay card.dueDay))) =
      sumOf (fun t => t.amount) (txs.filter (fun t =>
      t.creditCardId == some card.id && !t.paid && t.txType == TxType.EXPENSE &&
      t.isRecurringCharge &&
      dateLE t.date (calculateCurrentInvoiceDueDate today card.closingDay card.dueDay))) := by
    apply filter_congr_sumOf
    intro x
    unfold cardUnpaidExpense
    cases x.paid <;> cases x.isRecurringCharge <;> simp
  constructor
  · simp only [usedAmountBatched, usedAmountSpec]
    rw [e1, e2]
  · simp only [usedAmountAggregate, usedAmountSpec]
    have e3 : sumOf (fun t => t.amount) (txs.filter (fun t =>
        cardUnpaidExpense card t && !t.isRecurringCharge)) =
        sumOf (fun t => t.amount) (txs.filter (fun t =>
        t.creditCardId == some card.id && !t.paid && t.txType == TxType.EXPENSE &&
        !t.isRecurringCharge)) := by
      apply filter_congr_sumOf
      intro x
      unfold cardUnpaidExpense
      cases x.paid <;> cases x.isRecurringCharge <;> simp
    have e4 : sumOf (fun t => t.amount) (txs.filter (fun t =>
        (cardUnpaidExpense card t && t.isRecurringCharge) &&
        dateLE t.date (calculateCurrentInvoiceDueDate today card.closingDay card.dueDay))) =
        sumOf (fun t => t.amount) (txs.filter (fun t =>
        t.creditCardId == some card.id && !t.paid && t.txType == TxType.EXPENSE &&
        t.isRecurringCharge &&
        dateLE t.date (calculateCurrentInvoiceDueDate today card.closingDay card.dueDay))) := by
      apply filter_congr_sumOf
      intro x
      unfold cardUnpaidExpense
      cases x.paid <;> cases x.isRecurringCharge <;> simp [Bool.and_assoc]
    have e5 : sumOf (fun t => t.amount) (txs.filter (fun t =>
        (cardUnpaidExpense card t && t.isRecurringCharge) &&
        !(dateLE t.date (calculateCurrentInvoiceDueDate today card.closingDay card.dueDay)))) =
        sumOf (fun t => t.amount) (txs.filter (fun t =>
        cardUnpaidExpense card t && t.isRecurringCharge &&
        !(dateLE t.date (calculateCurrentInvoiceDueDate today card.closingDay card.dueDay)))) := by
      apply filter_congr_sumOf
      intro x
      simp [Bool.and_assoc]
    rw [hsplit1, hsplit2, e3, e4, e5]
    ring

/-- C3 counterexample: one unpaid recurring EXPENSE charge of 50 on card 1,
dated 2024-12-10, with today 2024-06-03 (open invoice due 2024-06-10): the
claim's formula — and the batched implementation — give a used amount of 0,
but the aggregate implementation reports 50. -/
theorem C3_counterexample :
    usedAmountAggregate
      [{ txType := TxType.EXPENSE, amount := 50, date := ⟨2024, 11, 10⟩,
         accountId := 1, categoryId := 1, creditCardId := some 1,
         isRecurringCharge := true, userId := 1 }] ⟨1, 1, 5, 10⟩ = 50 ∧
    usedAmountSpec
      [{ txType := TxType.EXPENSE, amount := 50, date := ⟨2024, 11, 10⟩,
         accountId := 1, categoryId := 1, creditCardId := some 1,
         isRecurringCharge := true, userId := 1 }] ⟨1, 1, 5, 10⟩ ⟨2024, 5, 3⟩ = 0 ∧
    (50 : ℚ) ≠ 0 := by
  have hd : dateLE (⟨2024, 11, 10⟩ : CalDate)
      (calculateCurrentInvoiceDueDate ⟨2024, 5, 3⟩ 5 10) = false := by decide
  refine ⟨?_, ?_, by norm_num⟩
  · norm_num [usedAmountAggregate, sumOf, cardUnpaidExpense, List.filter]
    all_goals decide
  · norm_num [usedAmountSpec, sumOf, List.filter, hd]
    all_goals decide

/-! ## Claim C4 -/

theorem foldl_income_expense (l : List Transaction) (b : ℚ) :
    l.foldl (fun b t => if t.txType == TxType.INCOME then b + t.amount else b - t.amount) b =
      b + sumOf (fun t => t.amount) (l.filter (fun t => t.txType == TxType.INCOME))
        - sumOf (fun t => t.amount) (l.filter (fun t => t.txType == TxType.EXPENSE)) := by
  induction l generalizing b with
  | nil => simp [sumOf]
  | cons a l ih =>
    cases hty : a.txType <;>
      simp [List.foldl_cons, List.filter_cons, hty, sumOf, List.sum_cons] at ih ⊢ <;>
      rw [ih] <;> ring

theorem foldl_sub_amounts {α : Type} (f : α → ℚ) (l : List α) (b : ℚ) :
    l.foldl (fun b t => b - f t) b = b - sumOf f l := by
  induction l generalizing b with
  | nil => simp [sumOf]
  | cons a l ih =>
    simp [List.foldl_cons, sumOf, List.sum_cons] at ih ⊢
    rw [ih]
    ring

theorem foldl_add_amounts {α : Type} (f : α → ℚ) (l : List α) (b : ℚ) :
    l.foldl (fun b t => b + f t) b = b + sumOf f l := by
  induction l generalizing b with
  | nil => simp [sumOf]
  | cons a l ih =>
    simp [List.foldl_cons, sumOf, List.sum_cons] at ih ⊢
    rw [ih]
    ring

/-- C4 (confirmed): the single-account balance endpoint and the batched
all-accounts balance endpoint both compute
`initialBalance + Σ income − Σ expense − Σ outgoing transfers + Σ incoming
transfers`, each restricted to entries dated at most the cutoff; and the
spec's concrete scenario — initial balance 1000, one INCOME of 1000, one
EXPENSE of 200 on or before the cutoff — yields 1800 in both. -/
theorem C4_account_balance :
    (∀ (account : Account) (txs : List Transaction) (transfers : List Transfer)
      (cutoff : CalDate),
      accountBalanceSingle account txs transfers cutoff =
        balanceSpec account.initialBalance txs transfers account.id cutoff ∧
      accountBalanceAll account txs transfers cutoff =
        balanceSpec account.initialBalance txs transfers account.id cutoff) ∧
    accountBalanceSingle ⟨1, 1, 1000⟩
      [{ txType := TxType.INCOME, amount := 1000, date := ⟨2024, 0, 10⟩,
         accountId := 1, categoryId := 1, userId := 1 },
       { txType := TxType.EXPENSE, amount := 200, date := ⟨2024, 0, 20⟩,
         accountId := 1, categoryId := 1, userId := 1 }] [] ⟨2024, 0, 31⟩ = 1800 ∧
    accountBalanceAll ⟨1, 1, 1000⟩
      [{ txType := TxType.INCOME, amount := 1000, date := ⟨2024, 0, 10⟩,
         accountId := 1, categoryId := 1, userId := 1 },
       { txType := TxType.EXPENSE, amount := 200, date := ⟨2024, 0, 20⟩,
         accountId := 1, categoryId := 1, userId := 1 }] [] ⟨2024, 0, 31⟩ = 1800 := by
  refine ⟨?_, ?_, ?_⟩
  case refine_2 =>
    norm_num [accountBalanceSingle, sumOf, dateLE, CalDate.toKey, List.filter, List.foldl]
    all_goals decide
  case refine_3 =>
    have hb1 : (TxType.EXPENSE == TxType.INCOME) = false := by decide
    have hb2 : (TxType.INCOME == TxType.EXPENSE) = false := by decide
    have hb3 : (TxType.INCOME == TxType.INCOME) = true := by decide
    have hb4 : (TxType.EXPENSE == TxType.EXPENSE) = true := by decide
    norm_num [accountBalanceAll, sumOf, dateLE, CalDate.toKey, List.filter,
      hb1, hb2, hb3, hb4]
    all_goals decide
  intro account txs transfers cutoff
  constructor
  · simp only [accountBalanceSingle, balanceSpec]
    rw [foldl_add_amounts, foldl_sub_amounts, foldl_income_expense]
    rw [List.filter_filter, List.filter_filter]
    have e1 : sumOf (fun t => t.amount) (txs.filter (fun t =>
        t.txType == TxType.INCOME && (t.accountId == account.id && dateLE t.date cutoff))) =
        sumOf (fun t => t.amount) (txs.filter (fun t =>
        t.accountId == account.id && t.txType == TxType.INCOME && dateLE t.date cutoff)) := by
      apply filter_congr_sumOf
      intro x
      cases hacc : x.accountId == account.id <;>
        cases hty : x.txType == TxType.INCOME <;>
        cases hdl : dateLE x.date cutoff <;> rfl
    have e2 : sumOf (fun t => t.amount) (txs.filter (fun t =>
        t.txType == TxType.EXPENSE && (t.accountId == account.id && dateLE t.date cutoff))) =
        sumOf (fun t => t.amount) (txs.filter (fun t =>
        t.accountId == account.id && t.txType == TxType.EXPENSE && dateLE t.date cutoff)) := by
      apply filter_congr_sumOf
      intro x
      cases hacc : x.accountId == account.id <;>
        cases hty : x.txType == TxType.EXPENSE <;>
        cases hdl : dateLE x.date cutoff <;> rfl
    rw [e1, e2]
  · simp only [accountBalanceAll, balanceSpec]
    have e1 : sumOf (fun t => t.amount) (txs.filter (fun t =>
        t.accountId == account.id && dateLE t.date cutoff && t.txType == TxType.INCOME)) =
        sumOf (fun t => t.amount) (txs.filter (fun t =>
        t.accountId == account.id && t.txType == TxType.INCOME && dateLE t.date cutoff)) := by
      apply filter_congr_sumOf
      intro x
      cases hacc : x.accountId == account.id <;>
        cases hty : x.txType == TxType.INCOME <;>
        cases hdl : dateLE x.date cutoff <;> rfl
    have e2 : sumOf (fun t => t.amount) (txs.filter (fun t =>
        t.accountId == account.id && dateLE t.date cutoff && t.txType == TxType.EXPENSE)) =
        sumOf (fun t => t.amount) (txs.filter (fun t =>
        t.accountId == account.id && t.txType == TxType.EXPENSE && dateLE t.date cutoff)) := by
      apply filter_congr_sumOf
      intro x
      cases hacc : x.accountId == account.id <;>
        cases hty : x.txType == TxType.EXPENSE <;>
        cases hdl : dateLE x.date cutoff <;> rfl
    rw [e1, e2]

/-! ## Claim C8 -/

theorem find_update_goal (goals : List Goal) (gid uid : ℕ) (goal g' : Goal)
    (hfind : goals.find? (fun g => g.id == gid && g.userId == uid) = some goal)
    (hid : g'.id = gid) (huid : g'.userId = uid) :
    (goals.map (fun g => if g.id == gid then g' else g)).find?
      (fun g => g.id == gid && g.userId == uid) = some g' := by
  induction goals with
  | nil => simp at hfind
  | cons a l ih =>
    by_cases ha : a.id = gid
    · rw [List.map_cons]
      have h1 : (if a.id == gid then g' else a) = g' := by simp [ha]
      rw [h1]
      exact List.find?_cons_of_pos _ (by simp [hid, huid])
    · rw [List.map_cons]
      have h2 : (if a.id == gid then g' else a) = a := by simp [ha]
      rw [h2]
      rw [List.find?_cons_of_neg _ (by simp [ha])]
      rw [List.find?_cons_of_neg _ (by simp [ha])] at hfind
      exact ih hfind

/-- C8 (confirmed): adding a contribution of `amount` to a goal with current
amount `C` and target `T` is rejected before any write when the goal is
absent or not ACTIVE; otherwise — atomically, in the model a single step
producing both writes — the contribution row is appended and the goal's
current amount becomes `C + amount`, and the goal ends COMPLETED exactly
when `C + amount ≥ T` (it was previously ACTIVE). -/
theorem C8_goal_contribution (goals : List Goal) (contributions : List GoalContribution)
    (gid uid : ℕ) (amount : ℚ) (date now : CalDate) :
    (goals.find? (fun g => g.id == gid && g.userId == uid) = none →
      addGoalContribution goals contributions gid uid amount date now =
        Except.error ContributionError.goalNotFound) ∧
    (∀ goal, goals.find? (fun g => g.id == gid && g.userId == uid) = some goal →
      (goal.status ≠ GoalStatus.ACTIVE →
        addGoalContribution goals contributions gid uid amount date now =
          Except.error ContributionError.goalNotActive) ∧
      (goal.status = GoalStatus.ACTIVE →
        ∃ goals1 contributions1,
          addGoalContribution goals contributions gid uid amount date now =
            Except.ok (goals1, contributions1) ∧
          contributions1 = contributions ++ [⟨gid, amount, date⟩] ∧
          ∃ g1, goals1.find? (fun g => g.id == gid && g.userId == uid) = some g1 ∧
            g1.currentAmount = goal.currentAmount + amount ∧
            (g1.status = GoalStatus.COMPLETED ↔
              goal.currentAmount + amount ≥ goal.targetAmount))) := by
  constructor
  · intro hnone
    simp only [addGoalContribution]
    rw [hnone]
  · intro goal hfind
    have hpred := List.find?_some hfind
    simp only [Bool.and_eq_true, beq_iff_eq] at hpred
    constructor
    · intro hne
      simp only [addGoalContribution, hfind]
      rw [if_pos hne]
    · intro hact
      simp only [addGoalContribution, hfind]
      rw [if_neg (by simp [hact])]
      by_cases hge : goal.currentAmount + amount ≥ goal.targetAmount
      · rw [if_pos ⟨hge, by simp [hact]⟩]
        refine ⟨_, _, rfl, rfl, ?_⟩
        refine ⟨_, find_update_goal goals gid uid goal _ hfind (by simp [hpred.1])
          (by simp [hpred.2]), rfl, ?_⟩
        simp [hge]
      · rw [if_neg (by intro hc; exact hge hc.1)]
        refine ⟨_, _, rfl, rfl, ?_⟩
        refine ⟨_, find_update_goal goals gid uid goal _ hfind (by simp [hpred.1])
          (by simp [hpred.2]), rfl, ?_⟩
        simp [hge, hact]

/-- Witness for C8: contributing 60 to an ACTIVE goal at 50/100 reaches 110
and completes it, with the contribution row appended in the same step. -/
theorem C8_goal_contribution_witness :
    (addGoalContribution [⟨1, 1, 100, 50, GoalStatus.ACTIVE, none⟩]
        [] 1 1 60 ⟨2024, 0, 5⟩ ⟨2024, 0, 5⟩).map
      (fun s => ((s.1.find? (fun g => g.id == 1 && g.userId == 1)).map
        (fun g => (g.currentAmount, g.status)), s.2)) =
      Except.ok (some (110, GoalStatus.COMPLETED), [⟨1, 60, ⟨2024, 0, 5⟩⟩]) := by
  obtain ⟨goals1, contributions1, hok, hc, g1, hfind, hamt, hst⟩ :=
    ((C8_goal_contribution [⟨1, 1, 100, 50, GoalStatus.ACTIVE, none⟩] [] 1 1 60
      ⟨2024, 0, 5⟩ ⟨2024, 0, 5⟩).2 ⟨1, 1, 100, 50, GoalStatus.ACTIVE, none⟩ (by decide)).2 rfl
  have hstc : g1.status = GoalStatus.COMPLETED := hst.mpr (by norm_num)
  rw [hok, hc]
  simp only [Except.map, hfind, Option.map, hamt, hstc]
  norm_num

/-! ## Recurrence loop lemmas -/

theorem calculateNextDueDate_valid (s : CalDate) (i : RecInterval) (c : Int)
    (b : Option CalDate) : (calculateNextDueDate s i c b).Valid := by
  cases i <;> simp only [calculateNextDueDate] <;> exact mkDate_valid _ _ _

theorem calculateNextDueDate_toKey_gt (s : CalDate) (i : RecInterval) (c : Int)
    (base : CalDate) (hb : base.Valid) (hc : 1 ≤ c) :
    base.toKey < (calculateNextDueDate s i c (some base)).toKey := by
  obtain ⟨hm0, hm1, hd1, hd2⟩ := hb
  have hb31 := daysInMonth_bounds base.year base.month
  cases i
  case DAY =>
    have h := mkDate_toKey_ge base.year base.month (base.day + c) hm0 (by omega)
    simp only [calculateNextDueDate, Option.getD_some, CalDate.toKey] at h ⊢
    omega
  case WEEK =>
    have h := mkDate_toKey_ge base.year base.month (base.day + c * 7) hm0 (by omega)
    simp only [calculateNextDueDate, Option.getD_some, CalDate.toKey] at h ⊢
    omega
  case MONTH =>
    have h := mkDate_toKey_ge base.year (base.month + c) base.day (by omega) hd1
    simp only [calculateNextDueDate, Option.getD_some, CalDate.toKey] at h ⊢
    omega
  case YEAR =>
    have h := mkDate_toKey_ge (base.year + c) base.month base.day hm0 hd1
    simp only [calculateNextDueDate, Option.getD_some, CalDate.toKey] at h ⊢
    omega

theorem generateDatesAux_spec (s : CalDate) (i : RecInterval) (c : Int) (endD : CalDate)
    (hc : 1 ≤ c) :
    ∀ fuel cur, cur.Valid → (endD.toKey + 1 - cur.toKey).toNat < fuel →
      (∀ k, k < (generateDatesAux s i c endD fuel cur).1.length →
        (generateDatesAux s i c endD fuel cur).1[k]? =
          some (iterateNextDueDate s i c k cur) ∧
        dateLE (iterateNextDueDate s i c k cur) endD = true) ∧
      (generateDatesAux s i c endD fuel cur).2 =
        iterateNextDueDate s i c (generateDatesAux s i c endD fuel cur).1.length cur ∧
      dateLE (generateDatesAux s i c endD fuel cur).2 endD = false ∧
      (generateDatesAux s i c endD fuel cur).2.Valid ∧
      cur.toKey ≤ (generateDatesAux s i c endD fuel cur).2.toKey := by
  intro fuel
  induction fuel with
  | zero =>
    intro cur hv hf
    omega
  | succ fuel ih =>
    intro cur hv hf
    by_cases hle : dateLE cur endD = true
    · have hnv : (calculateNextDueDate s i c (some cur)).Valid :=
        calculateNextDueDate_valid s i c (some cur)
      have hgt := calculateNextDueDate_toKey_gt s i c cur hv hc
      have hcurle : cur.toKey ≤ endD.toKey := by
        simpa [dateLE] using hle
      have hf' : (endD.toKey + 1 -
          (calculateNextDueDate s i c (some cur)).toKey).toNat < fuel := by
        omega
      have IH := ih (calculateNextDueDate s i c (some cur)) hnv hf'
      simp only [generateDatesAux, if_pos hle]
      obtain ⟨IH1, IH2, IH3, IH4, IH5⟩ := IH
      refine ⟨?_, ?_, IH3, IH4, by omega⟩
      · intro k hk
        cases k with
        | zero =>
          exact ⟨by simp [iterateNextDueDate], by simpa [iterateNextDueDate] using hle⟩
        | succ k =>
          simp only [List.length_cons] at hk
          have h := IH1 k (by omega)
          exact ⟨by simpa [iterateNextDueDate] using h.1,
            by simpa [iterateNextDueDate] using h.2⟩
      · simpa [iterateNextDueDate] using IH2
    · have hne : dateLE cur endD = false := by
        simpa using hle
      simp only [generateDatesAux, if_neg hle]
      refine ⟨?_, rfl, hne, hv, le_refl _⟩
      intro k hk
      simp at hk

theorem generateDates_spec (s : CalDate) (i : RecInterval) (c : Int) (endD cur : CalDate)
    (hc : 1 ≤ c) (hv : cur.Valid) :
    (∀ k, k < (generateDates s i c endD cur).1.length →
      (generateDates s i c endD cur).1[k]? = some (iterateNextDueDate s i c k cur) ∧
      dateLE (iterateNextDueDate s i c k cur) endD = true) ∧
    (generateDates s i c endD cur).2 =
      iterateNextDueDate s i c (generateDates s i c endD cur).1.length cur ∧
    dateLE (generateDates s i c endD cur).2 endD = false ∧
    (generateDates s i c endD cur).2.Valid ∧
    cur.toKey ≤ (generateDates s i c endD cur).2.toKey := by
  unfold generateDates
  exact generateDatesAux_spec s i c endD hc (genFuel cur endD) cur hv
    (by unfold genFuel; omega)

theorem generateDates_stop (s : CalDate) (i : RecInterval) (c : Int) (endD cur : CalDate)
    (h : dateLE cur endD = false) :
    generateDates s i c endD cur = ([], cur) := by
  unfold generateDates genFuel
  rw [generateDatesAux, if_neg (by simp [h])]

theorem getElem?_map_of_getElem? {α β : Type} (f : α → β) (l : List α) (k : ℕ) (x : α)
    (h : l[k]? = some x) : (l.map f)[k]? = some (f x) := by
  rw [List.getElem?_map, h]
  rfl

/-! ## Claim C5 -/

/-- C5 (confirmed): `POST /recurring` creates one unpaid
`isRecurringCharge` transaction per occurrence — the k-th generated row is
dated at the k-th occurrence of the rule starting at `startDate` — covering
exactly the occurrences up to `min(endDate, now + 12 months)` (the first
ungenerated occurrence lies strictly past that horizon), every row linked by
`recurrenceId` to the one new Recurrence row, whose `nextDueDate` is set to
that first occurrence strictly past the horizon. -/
theorem C5_create_recurring (data : CreateRecurringData) (userId recId : ℕ)
    (now : CalDate) (rec : Recurrence) (rows : List Transaction) (horizon : CalDate)
    (hc : 1 ≤ data.intervalCount)
    (hstart : data.startDate.Valid)
    (hres : createRecurring data userId recId now = (rec, rows))
    (hhor : horizon = effectiveEndDate data.endDate (maxFutureDate now)) :
    ((data.endDate = none → horizon = maxFutureDate now) ∧
     (∀ e, data.endDate = some e →
        horizon.toKey = min e.toKey (maxFutureDate now).toKey)) ∧
    (∀ k, k < rows.length →
      ∃ row, rows[k]? = some row ∧
        row.date = iterateNextDueDate data.startDate data.interval data.intervalCount k
          data.startDate ∧
        dateLE row.date horizon = true ∧
        row.paid = false ∧
        row.isRecurringCharge = true ∧
        row.recurrenceId = some recId ∧
        row.amount = data.amount) ∧
    dateLE (iterateNextDueDate data.startDate data.interval data.intervalCount
      rows.length data.startDate) horizon = false ∧
    rec.nextDueDate = some (iterateNextDueDate data.startDate data.interval
      data.intervalCount rows.length data.startDate) := by
  subst hhor
  have hspec := generateDates_spec data.startDate data.interval data.intervalCount
    (effectiveEndDate data.endDate (maxFutureDate now)) data.startDate hc hstart
  obtain ⟨hidx, hfin, hfinle, hfinv, hfinkey⟩ := hspec
  simp only [createRecurring] at hres
  rw [Prod.mk.injEq] at hres
  obtain ⟨hrec, hrows⟩ := hres
  refine ⟨⟨?_, ?_⟩, ?_, ?_, ?_⟩
  · intro hend
    simp [effectiveEndDate, hend]
  · intro e hend
    simp only [effectiveEndDate, hend]
    by_cases hlt : e.toKey < (maxFutureDate now).toKey
    · rw [if_pos hlt]
      omega
    · rw [if_neg hlt]
      omega
  · intro k hk
    rw [← hrows, List.length_map] at hk
    have h := hidx k hk
    rw [← hrows]
    exact ⟨_, getElem?_map_of_getElem? _ _ k _ h.1, rfl, h.2, rfl, rfl, rfl, rfl⟩
  · rw [← hrows, List.length_map, ← hfin]
    exact hfinle
  · rw [← hrec, ← hrows, List.length_map, ← hfin]

/-! ## Extension-run lemmas -/

theorem txExistsForDay_false_iff (txs : List Transaction) (recId : ℕ) (d : CalDate) :
    txExistsForDay txs recId d = false ↔
    ∀ t ∈ txs, ¬ (t.recurrenceId = some recId ∧ sameCalendarDay t.date d = true) := by
  unfold txExistsForDay
  rw [List.any_eq_false]
  constructor
  · intro h t ht hc
    exact h t ht (by simp [hc.1, hc.2])
  · intro h t ht hc
    simp only [Bool.and_eq_true, beq_iff_eq] at hc
    exact h t ht ⟨hc.1, hc.2⟩

theorem appendMissing_nodup (r : Recurrence) (userId : ℕ) (amt : ℚ) (acc cat : ℕ) :
    ∀ (dates : List CalDate) (txs : List Transaction), NoDupRecDay txs →
    NoDupRecDay (appendMissing r userId amt acc cat dates txs).1 := by
  intro dates
  induction dates with
  | nil =>
    intro txs h
    exact h
  | cons d rest ih =>
    intro txs h
    by_cases hex : txExistsForDay txs r.id d = true
    · simp only [appendMissing, if_pos hex]
      exact ih txs h
    · have hex' : txExistsForDay txs r.id d = false := by simpa using hex
      simp only [appendMissing, if_neg hex]
      apply ih
      unfold NoDupRecDay at h ⊢
      rw [List.pairwise_append]
      refine ⟨h, by simp, ?_⟩
      intro a ha b hb rid har hbr
      simp only [List.mem_singleton] at hb
      subst hb
      simp only at hbr
      have hrid : rid = r.id := by
        cases hbr
        rfl
      subst hrid
      cases hsd : sameCalendarDay a.date d
      · rfl
      · exact absurd ⟨har, hsd⟩ ((txExistsForDay_false_iff txs r.id d).mp hex' a ha)

theorem generateRun_start_valid (r : Recurrence) (hwf : RecurrenceWF r) :
    (match r.nextDueDate with
     | some nd => nd
     | none => r.startDate).Valid := by
  cases hnd : r.nextDueDate with
  | none => exact hwf.2.1
  | some nd => exact hwf.2.2 nd hnd

theorem generateRun_nil (now maxF : CalDate) (userId : ℕ) (txs : List Transaction) :
    generateRun now maxF userId [] txs = ([], txs, 0) := by
  rfl

theorem generateRun_cons_full (now maxF : CalDate) (userId : ℕ) (r : Recurrence)
    (rest : List Recurrence) (txs : List Transaction) (amt : ℚ) (acc cat : ℕ)
    (hsel : recurrenceSelected r now maxF = true)
    (ham : r.amount = some amt) (hacc : r.accountId = some acc)
    (hcat : r.categoryId = some cat) :
    generateRun now maxF userId (r :: rest) txs =
      ({ r with nextDueDate := some (recGen maxF r).2 } ::
        (generateRun now maxF userId rest
          (appendMissing r userId amt acc cat (recGen maxF r).1 txs).1).1,
       (generateRun now maxF userId rest
          (appendMissing r userId amt acc cat (recGen maxF r).1 txs).1).2.1,
       (appendMissing r userId amt acc cat (recGen maxF r).1 txs).2 +
       (generateRun now maxF userId rest
          (appendMissing r userId amt acc cat (recGen maxF r).1 txs).1).2.2) := by
  simp only [generateRun, if_pos hsel, ham, hacc, hcat, recGen, recStart]

theorem generateRun_cons_skip (now maxF : CalDate) (userId : ℕ) (r : Recurrence)
    (rest : List Recurrence) (txs : List Transaction)
    (h : recurrenceSelected r now maxF = false ∨ r.amount = none ∨
      r.accountId = none ∨ r.categoryId = none) :
    generateRun now maxF userId (r :: rest) txs =
      (r :: (generateRun now maxF userId rest txs).1,
       (generateRun now maxF userId rest txs).2.1,
       (generateRun now maxF userId rest txs).2.2) := by
  rcases h with h | h | h | h
  · rw [generateRun, if_neg (by simp [h])]
  · by_cases hsel : recurrenceSelected r now maxF = true
    · rw [generateRun, if_pos hsel]
      simp only [h]
    · rw [generateRun, if_neg hsel]
  · by_cases hsel : recurrenceSelected r now maxF = true
    · rw [generateRun, if_pos hsel]
      cases ham : r.amount <;> simp only [h, ham]
    · rw [generateRun, if_neg hsel]
  · by_cases hsel : recurrenceSelected r now maxF = true
    · rw [generateRun, if_pos hsel]
      cases ham : r.amount <;> cases hacc : r.accountId <;> simp only [h, ham, hacc]
    · rw [generateRun, if_neg hsel]

/-- A recurrence whose `nextDueDate` already lies past its effective horizon
contributes nothing to an extension run: either it is filtered out, or its
generation loop exits immediately. -/
theorem generateRun_cons_exhausted (now maxF : CalDate) (userId : ℕ) (r1 : Recurrence)
    (rest1 : List Recurrence) (txs2 : List Transaction)
    (h : ∀ nd, r1.nextDueDate = some nd →
      dateLE nd (effectiveEndDate r1.endDate maxF) = false) :
    (generateRun now maxF userId (r1 :: rest1) txs2).2.2 =
      (generateRun now maxF userId rest1 txs2).2.2 := by
  by_cases hsel : recurrenceSelected r1 now maxF = true
  · have hnd : ∃ nd, r1.nextDueDate = some nd := by
      unfold recurrenceSelected at hsel
      cases hh : r1.nextDueDate with
      | none =>
        rw [hh] at hsel
        simp at hsel
      | some nd => exact ⟨nd, rfl⟩
    obtain ⟨nd, hnd⟩ := hnd
    cases ham : r1.amount with
    | none => rw [generateRun_cons_skip now maxF userId r1 rest1 txs2 (by simp [ham])]
    | some amt =>
      cases hacc : r1.accountId with
      | none => rw [generateRun_cons_skip now maxF userId r1 rest1 txs2 (by simp [hacc])]
      | some acc =>
        cases hcat : r1.categoryId with
        | none => rw [generateRun_cons_skip now maxF userId r1 rest1 txs2 (by simp [hcat])]
        | some cat =>
          rw [generateRun_cons_full now maxF userId r1 rest1 txs2 amt acc cat hsel ham
            hacc hcat]
          have hstop : recGen maxF r1 = ([], nd) := by
            unfold recGen recStart
            rw [hnd]
            exact generateDates_stop _ _ _ _ _ (h nd hnd)
          rw [hstop]
          simp only [appendMissing]
          omega
  · rw [generateRun_cons_skip now maxF userId r1 rest1 txs2 (Or.inl (by simpa using hsel))]

theorem generateRun_second_zero (now maxF : CalDate) (userId : ℕ) :
    ∀ (recs : List Recurrence) (txs : List Transaction),
      (∀ r ∈ recs, RecurrenceWF r) →
      ∀ txs2, (generateRun now maxF userId
        (generateRun now maxF userId recs txs).1 txs2).2.2 = 0 := by
  intro recs
  induction recs with
  | nil =>
    intro txs h txs2
    simp [generateRun]
  | cons r rest ih =>
    intro txs hwf txs2
    have hwfr : RecurrenceWF r := hwf r (by simp)
    have hwfrest : ∀ x ∈ rest, RecurrenceWF x := fun x hx => hwf x (by simp [hx])
    have hstart : (recStart r).Valid := by
      unfold recStart
      cases hnd : r.nextDueDate with
      | none => exact hwfr.2.1
      | some nd => exact hwfr.2.2 nd hnd
    by_cases hsel : recurrenceSelected r now maxF = true
    · cases ham : r.amount with
      | none =>
        rw [generateRun_cons_skip now maxF userId r rest txs (by simp [ham]),
          generateRun_cons_skip now maxF userId r _ txs2 (by simp [ham])]
        exact ih txs hwfrest txs2
      | some amt =>
        cases hacc : r.accountId with
        | none =>
          rw [generateRun_cons_skip now maxF userId r rest txs (by simp [hacc]),
            generateRun_cons_skip now maxF userId r _ txs2 (by simp [hacc])]
          exact ih txs hwfrest txs2
        | some acc =>
          cases hcat : r.categoryId with
          | none =>
            rw [generateRun_cons_skip now maxF userId r rest txs (by simp [hcat]),
              generateRun_cons_skip now maxF userId r _ txs2 (by simp [hcat])]
            exact ih txs hwfrest txs2
          | some cat =>
            have hspec := generateDates_spec r.startDate r.interval r.intervalCount
              (effectiveEndDate r.endDate maxF) (recStart r) hwfr.1 hstart
            rw [generateRun_cons_full now maxF userId r rest txs amt acc cat hsel ham
              hacc hcat]
            rw [generateRun_cons_exhausted now maxF userId _ _ txs2 ?_]
            · exact ih _ hwfrest txs2
            · intro nd hnd
              have hh : some (recGen maxF r).2 = some nd := hnd
              cases hh
              exact hspec.2.2.1
    · rw [generateRun_cons_skip now maxF userId r rest txs (Or.inl (by simpa using hsel)),
        generateRun_cons_skip now maxF userId r _ txs2 (Or.inl (by simpa using hsel))]
      exact ih txs hwfrest txs2

theorem generateRun_nodup (now maxF : CalDate) (userId : ℕ) :
    ∀ (recs : List Recurrence) (txs : List Transaction), NoDupRecDay txs →
      NoDupRecDay (generateRun now maxF userId recs txs).2.1 := by
  intro recs
  induction recs with
  | nil =>
    intro txs h
    simpa [generateRun] using h
  | cons r rest ih =>
    intro txs h
    by_cases hsel : recurrenceSelected r now maxF = true
    · cases ham : r.amount with
      | none =>
        rw [generateRun_cons_skip now maxF userId r rest txs (by simp [ham])]
        exact ih txs h
      | some amt =>
        cases hacc : r.accountId with
        | none =>
          rw [generateRun_cons_skip now maxF userId r rest txs (by simp [hacc])]
          exact ih txs h
        | some acc =>
          cases hcat : r.categoryId with
          | none =>
            rw [generateRun_cons_skip now maxF userId r rest txs (by simp [hcat])]
            exact ih txs h
          | some cat =>
            rw [generateRun_cons_full now maxF userId r rest txs amt acc cat hsel ham
              hacc hcat]
            exact ih _ (appendMissing_nodup r userId amt acc cat (recGen maxF r).1 txs h)
    · rw [generateRun_cons_skip now maxF userId r rest txs (Or.inl (by simpa using hsel))]
      exact ih txs h

/-! ## Claim C6 -/

/-- C6 (confirmed): the extension endpoint is idempotent — running it twice
with no time elapsed and no writes in between creates zero transactions the
second time — and it preserves the invariant that no two transactions of
the same recurrence share a calendar day (the per-occurrence guard checks
the ledger, including rows created earlier in the same run, before every
insert).  `RecurrenceWF` records what the creation endpoint's validation
guarantees: `intervalCount ≥ 1` and normalized stored dates. -/
theorem C6_extension_idempotent (now : CalDate) (userId : ℕ) (s : LedgerState)
    (hwf : ∀ r ∈ s.recurrences, RecurrenceWF r) :
    (generateEndpoint now userId (generateEndpoint now userId s).1).2 = 0 ∧
    (NoDupRecDay s.transactions →
      NoDupRecDay (generateEndpoint now userId s).1.transactions) := by
  constructor
  · simp only [generateEndpoint]
    exact generateRun_second_zero now (maxFutureDate now) userId s.recurrences
      s.transactions hwf _
  · intro h
    simp only [generateEndpoint]
    exact generateRun_nodup now (maxFutureDate now) userId s.recurrences
      s.transactions h

/-- Witness for C5: a monthly recurrence from 2024-01-01 with end date
2024-02-20, created on 2024-01-15, materializes two rows (2024-01-01 and
2024-02-01) and stores `nextDueDate` 2024-03-01. -/
theorem C5_create_recurring_witness :
    (createRecurring dataC5w 1 7 ⟨2024, 0, 15⟩).1.nextDueDate = some ⟨2024, 2, 1⟩ ∧
    (createRecurring dataC5w 1 7 ⟨2024, 0, 15⟩).2.length = 2 := by
  have h := C5_create_recurring dataC5w 1 7 ⟨2024, 0, 15⟩
    (createRecurring dataC5w 1 7 ⟨2024, 0, 15⟩).1
    (createRecurring dataC5w 1 7 ⟨2024, 0, 15⟩).2
    (effectiveEndDate dataC5w.endDate (maxFutureDate ⟨2024, 0, 15⟩))
    (by decide) (by decide) rfl rfl
  refine ⟨?_, by decide⟩
  rw [h.2.2.2]
  decide

/-- Witness for C6: one well-formed monthly recurrence, extended twice from
an empty ledger on 2024-01-15, creates nothing on the second run. -/
theorem C6_extension_idempotent_witness :
    (generateEndpoint ⟨2024, 0, 15⟩ 1 (generateEndpoint ⟨2024, 0, 15⟩ 1 stateC6w).1).2 = 0 :=
  (C6_extension_idempotent ⟨2024, 0, 15⟩ 1 stateC6w (by
    intro r hr
    simp only [stateC6w, List.mem_singleton] at hr
    subst hr
    refine ⟨by decide, by decide, ?_⟩
    intro nd h
    injection h with h
    subst h
    decide)).1

/-! ## Claim C7 -/

theorem generateRun_mono (now maxF : CalDate) (userId : ℕ) :
    ∀ (recs : List Recurrence) (txs : List Transaction),
      (∀ r ∈ recs, RecurrenceWF r) →
      (generateRun now maxF userId recs txs).1.length = recs.length ∧
      (∀ (k : ℕ) (r r1 : Recurrence), recs[k]? = some r →
        (generateRun now maxF userId recs txs).1[k]? = some r1 →
        r1.startDate = r.startDate ∧
        (∀ nd nd1, r.nextDueDate = some nd → r1.nextDueDate = some nd1 →
          nd.toKey ≤ nd1.toKey) ∧
        ((∀ nd, r.nextDueDate = some nd → r.startDate.toKey ≤ nd.toKey) →
          ∀ nd1, r1.nextDueDate = some nd1 → r1.startDate.toKey ≤ nd1.toKey)) := by
  intro recs
  induction recs with
  | nil =>
    intro txs h
    refine ⟨by simp [generateRun], ?_⟩
    intro k r r1 hk
    simp at hk
  | cons r rest ih =>
    intro txs hwf
    have hwfr : RecurrenceWF r := hwf r (by simp)
    have hwfrest : ∀ x ∈ rest, RecurrenceWF x := fun x hx => hwf x (by simp [hx])
    have hstart : (recStart r).Valid := by
      unfold recStart
      cases hnd : r.nextDueDate with
      | none => exact hwfr.2.1
      | some nd => exact hwfr.2.2 nd hnd
    have hskip : ∀ (txs' : List Transaction),
        (r :: (generateRun now maxF userId rest txs').1).length = (r :: rest).length ∧
        (∀ (k : ℕ) (rr r1 : Recurrence), (r :: rest)[k]? = some rr →
          (r :: (generateRun now maxF userId rest txs').1)[k]? = some r1 →
          r1.startDate = rr.startDate ∧
          (∀ nd nd1, rr.nextDueDate = some nd → r1.nextDueDate = some nd1 →
            nd.toKey ≤ nd1.toKey) ∧
          ((∀ nd, rr.nextDueDate = some nd → rr.startDate.toKey ≤ nd.toKey) →
            ∀ nd1, r1.nextDueDate = some nd1 → r1.startDate.toKey ≤ nd1.toKey)) := by
      intro txs'
      have IH := ih txs' hwfrest
      refine ⟨by simpa using IH.1, ?_⟩
      intro k rr r1 hk hk1
      cases k with
      | zero =>
        simp only [List.getElem?_cons_zero] at hk hk1
        cases hk
        cases hk1
        refine ⟨rfl, ?_, ?_⟩
        · intro nd nd1 h1 h2
          rw [h1] at h2
          injection h2 with h2
          subst h2
          exact le_refl _
        · intro hinv nd1 h1
          exact hinv nd1 h1
      | succ k =>
        simp only [List.getElem?_cons_succ] at hk hk1
        exact IH.2 k rr r1 hk hk1
    by_cases hsel : recurrenceSelected r now maxF = true
    · cases ham : r.amount with
      | none =>
        rw [generateRun_cons_skip now maxF userId r rest txs (by simp [ham])]
        exact hskip txs
      | some amt =>
        cases hacc : r.accountId with
        | none =>
          rw [generateRun_cons_skip now maxF userId r rest txs (by simp [hacc])]
          exact hskip txs
        | some acc =>
          cases hcat : r.categoryId with
          | none =>
            rw [generateRun_cons_skip now maxF userId r rest txs (by simp [hcat])]
            exact hskip txs
          | some cat =>
            have hspec := generateDates_spec r.startDate r.interval r.intervalCount
              (effectiveEndDate r.endDate maxF) (recStart r) hwfr.1 hstart
            rw [generateRun_cons_full now maxF userId r rest txs amt acc cat hsel ham
              hacc hcat]
            have IH := ih (appendMissing r userId amt acc cat (recGen maxF r).1 txs).1
              hwfrest
            refine ⟨by simpa using IH.1, ?_⟩
            intro k rr r1 hk hk1
            cases k with
            | zero =>
              simp only [List.getElem?_cons_zero] at hk hk1
              cases hk
              cases hk1
              refine ⟨rfl, ?_, ?_⟩
              · intro nd nd1 h1 h2
                have h2' : some (recGen maxF r).2 = some nd1 := h2
                injection h2' with h2'
                subst h2'
                have hrs : recStart r = nd := by
                  simp only [recStart, h1]
                have hkey := hspec.2.2.2.2
                unfold recGen
                rw [← hrs]
                exact hkey
              · intro hinv nd1 h1
                have h1' : some (recGen maxF r).2 = some nd1 := h1
                injection h1' with h1'
                subst h1'
                have hkey := hspec.2.2.2.2
                have hstartle : r.startDate.toKey ≤ (recStart r).toKey := by
                  cases hnd : r.nextDueDate with
                  | none =>
                    simp only [recStart, hnd]
                    exact le_refl _
                  | some nd =>
                    simp only [recStart, hnd]
                    exact hinv nd hnd
                unfold recGen
                calc r.startDate.toKey ≤ (recStart r).toKey := hstartle
                  _ ≤ _ := hkey
            | succ k =>
              simp only [List.getElem?_cons_succ] at hk hk1
              exact IH.2 k rr r1 hk hk1
    · rw [generateRun_cons_skip now maxF userId r rest txs (Or.inl (by simpa using hsel))]
      exact hskip txs

theorem resumeAux_key_ge (s : CalDate) (i : RecInterval) (c : Int) (today : CalDate)
    (hc : 1 ≤ c) :
    ∀ fuel cur, cur.Valid →
      cur.toKey ≤ (resumeAux s i c today fuel cur).toKey := by
  intro fuel
  induction fuel with
  | zero =>
    intro cur hv
    simp [resumeAux]
  | succ fuel ih =>
    intro cur hv
    by_cases hlt : cur.toKey < today.toKey
    · rw [resumeAux, if_pos (by simpa using hlt)]
      have h1 := calculateNextDueDate_toKey_gt s i c cur hv hc
      have h2 := ih (calculateNextDueDate s i c (some cur))
        (calculateNextDueDate_valid s i c (some cur))
      omega
    · rw [resumeAux, if_neg (by simpa using hlt)]

/-- C7 (confirmed): `nextDueDate` stays at or after `startDate` across every
operation that writes it — creation sets it to an occurrence of the chain
starting at `startDate`; an extension run only moves each recurrence's
`nextDueDate` forward (monotone non-decreasing across generation runs) and
preserves the `≥ startDate` invariant; resume fast-forwards it (never
backwards) and keeps the invariant; the update endpoint recomputes it as
`startDate` plus one interval, which lies strictly after `startDate`. -/
theorem C7_next_due_date (now today : CalDate) (userId recId : ℕ) :
    (∀ (data : CreateRecurringData) (rec : Recurrence) (rows : List Transaction),
      1 ≤ data.intervalCount → data.startDate.Valid →
      createRecurring data userId recId now = (rec, rows) →
      ∀ nd, rec.nextDueDate = some nd → rec.startDate.toKey ≤ nd.toKey) ∧
    (∀ (s : LedgerState), (∀ r ∈ s.recurrences, RecurrenceWF r) →
      ∀ (k : ℕ) (r r1 : Recurrence), s.recurrences[k]? = some r →
        (generateEndpoint now userId s).1.recurrences[k]? = some r1 →
        r1.startDate = r.startDate ∧
        (∀ nd nd1, r.nextDueDate = some nd → r1.nextDueDate = some nd1 →
          nd.toKey ≤ nd1.toKey) ∧
        ((∀ nd, r.nextDueDate = some nd → r.startDate.toKey ≤ nd.toKey) →
          ∀ nd1, r1.nextDueDate = some nd1 → r1.startDate.toKey ≤ nd1.toKey)) ∧
    (∀ (r : Recurrence), RecurrenceWF r →
      (∀ nd, r.nextDueDate = some nd → r.startDate.toKey ≤ nd.toKey) →
      (∀ nd0 nd1, r.nextDueDate = some nd0 →
        (resumeRecurrence r today).nextDueDate = some nd1 → nd0.toKey ≤ nd1.toKey) ∧
      (∀ nd1, (resumeRecurrence r today).nextDueDate = some nd1 →
        (resumeRecurrence r today).startDate.toKey ≤ nd1.toKey)) ∧
    (∀ (startDate : CalDate) (interval : RecInterval) (count : Int),
      startDate.Valid → 1 ≤ count →
      startDate.toKey ≤ (calculateNextDueDate startDate interval count none).toKey) := by
  refine ⟨?_, ?_, ?_, ?_⟩
  · intro data rec rows hc hv hres nd hnd
    have hspec := generateDates_spec data.startDate data.interval data.intervalCount
      (effectiveEndDate data.endDate (maxFutureDate now)) data.startDate hc hv
    simp only [createRecurring] at hres
    rw [Prod.mk.injEq] at hres
    obtain ⟨hrec, hrows⟩ := hres
    rw [← hrec] at hnd
    simp only at hnd
    injection hnd with hnd
    subst hnd
    rw [← hrec]
    exact hspec.2.2.2.2
  · intro s hwf k r r1 hk hk1
    simp only [generateEndpoint] at hk1
    exact (generateRun_mono now (maxFutureDate now) userId s.recurrences s.transactions
      hwf).2 k r r1 hk hk1
  · intro r hwfr hinv
    have hnd0v : (r.nextDueDate.getD r.startDate).Valid := by
      cases hnd : r.nextDueDate with
      | none => exact hwfr.2.1
      | some nd => exact hwfr.2.2 nd hnd
    have hge := resumeAux_key_ge r.startDate r.interval r.intervalCount today hwfr.1
      ((today.toKey + 1 - (r.nextDueDate.getD r.startDate).toKey).toNat + 1)
      (r.nextDueDate.getD r.startDate) hnd0v
    constructor
    · intro nd0 nd1 h0 h1
      have h1' : some (resumeAux r.startDate r.interval r.intervalCount today
          ((today.toKey + 1 - (r.nextDueDate.getD r.startDate).toKey).toNat + 1)
          (r.nextDueDate.getD r.startDate)) = some nd1 := h1
      injection h1' with h1'
      subst h1'
      rw [h0] at hge ⊢
      simpa using hge
    · intro nd1 h1
      have h1' : some (resumeAux r.startDate r.interval r.intervalCount today
          ((today.toKey + 1 - (r.nextDueDate.getD r.startDate).toKey).toNat + 1)
          (r.nextDueDate.getD r.startDate)) = some nd1 := h1
      injection h1' with h1'
      subst h1'
      have hstartle : r.startDate.toKey ≤ (r.nextDueDate.getD r.startDate).toKey := by
        cases hnd : r.nextDueDate with
        | none => simp
        | some nd =>
          simp only [hnd, Option.getD_some]
          exact hinv nd hnd
      calc (resumeRecurrence r today).startDate.toKey
          = r.startDate.toKey := rfl
        _ ≤ (r.nextDueDate.getD r.startDate).toKey := hstartle
        _ ≤ _ := hge
  · intro startDate interval count hv hc
    exact le_of_lt (calculateNextDueDate_toKey_gt startDate interval count startDate hv hc)

/-- Witness for C7 at concrete states: creation, one extension run, resume
and update each leave `nextDueDate` at or after `startDate`. -/
theorem C7_next_due_date_witness :
    (createRecurring dataC5w 1 7 ⟨2024, 0, 15⟩).1.startDate.toKey ≤
      (⟨2024, 2, 1⟩ : CalDate).toKey ∧
    (⟨2024, 0, 1⟩ : CalDate).toKey ≤ (⟨2024, 2, 1⟩ : CalDate).toKey ∧
    (⟨2024, 0, 1⟩ : CalDate).toKey ≤ (⟨2024, 1, 1⟩ : CalDate).toKey ∧
    (⟨2024, 0, 1⟩ : CalDate).toKey ≤
      (calculateNextDueDate ⟨2024, 0, 1⟩ RecInterval.MONTH 1 none).toKey := by
  have h := C7_next_due_date ⟨2024, 0, 15⟩ ⟨2024, 0, 15⟩ 1 7
  have hwf : ∀ r ∈ stateC6w.recurrences, RecurrenceWF r := by
    intro r hr
    simp only [stateC6w, List.mem_singleton] at hr
    subst hr
    refine ⟨by decide, by decide, ?_⟩
    intro nd hnd
    injection hnd with hnd
    subst hnd
    decide
  have hinv : ∀ nd, recC6w.nextDueDate = some nd →
      recC6w.startDate.toKey ≤ nd.toKey := by
    intro nd hnd
    injection hnd with hnd
    subst hnd
    decide
  refine ⟨?_, ?_, ?_, ?_⟩
  · exact h.1 dataC5w (createRecurring dataC5w 1 7 ⟨2024, 0, 15⟩).1
      (createRecurring dataC5w 1 7 ⟨2024, 0, 15⟩).2 (by decide) (by decide) rfl
      ⟨2024, 2, 1⟩ (by decide)
  · exact (h.2.1 stateC6w hwf 0 recC6w recC6w2 (by decide) (by decide)).2.1
      ⟨2024, 0, 1⟩ ⟨2024, 2, 1⟩ (by decide) (by decide)
  · exact (h.2.2.1 recC6w (hwf recC6w (by simp [stateC6w])) hinv).1
      ⟨2024, 0, 1⟩ ⟨2024, 1, 1⟩ (by decide) (by decide)
  · exact h.2.2.2 ⟨2024, 0, 1⟩ RecInterval.MONTH 1 (by decide) (by decide)
